import Mathlib

set_option linter.unusedVariables false

/-!
Verification development for the intact template parser (vdt) and the
misstime reconciler.  The parser of `packages/vdt/src/compiler/parser.ts`
is embedded as a fuel-indexed family of explicit-state functions over the
source character list; the reconciler's unmount path
(`packages/misstime/src/core/unmount.ts` together with the component
methods of `packages/misstime/src/components/component.ts`) is embedded
as effect-collecting functions over a VNode family.  Helper modules that
are not part of the source sample (vdt `utils/helpers`, `utils/validate`,
misstime `utils/component`, `events/delegation`, …) are modelled from the
spec and carry a doc comment saying so.
-/

namespace Intact

/-- Source location, line/column, as tracked by the Parser class. -/
structure Loc where
  line : Nat
  column : Nat
deriving DecidableEq, Repr

/-- Mutable scanner state of the Parser class: `index`, `line`, `column`.
The source string and the options are fixed per run and live in `Ctx`. -/
structure PS where
  index : Nat
  line : Nat
  column : Nat
deriving DecidableEq, Repr

/-- Failure modes of a parser run.  `parseError` is `throwError` of the vdt
helpers (message plus location); `typeError` models a JavaScript TypeError
such as assigning to a property of `null`; `outOfFuel` is the artefact of
the fuel-indexed embedding and never occurs for sufficiently large fuel. -/
inductive Err where
  | parseError (msg : List Char) (loc : Loc)
  | typeError
  | outOfFuel
deriving DecidableEq, Repr

/-- Result of a stateful parser step: error, or value plus next state. -/
abbrev PRes (α : Type) := Except Err (α × PS)

/-- Fixed context of one parser run: the (already right-trimmed) source,
the configured expression delimiters, and the value of
`process.env.NODE_ENV` the build was made with. -/
structure Ctx where
  source : List Char
  d0 : List Char
  d1 : List Char
  env : List Char

/-- Single-quote character, kept as a named constant. -/
def squote : Char := Char.ofNat 39

/-- Double-quote character, kept as a named constant. -/
def dquote : Char := Char.ofNat 34

/-- Backtick character, kept as a named constant. -/
def btick : Char := Char.ofNat 96

/-- Newline character. -/
def nlC : Char := Char.ofNat 10

/-- Modelled from the spec: vdt `utils/helpers` is not in the source
sample.  `isWhiteSpace` holds on the JavaScript whitespace character
codes used by the scanner (tab, LF, VT, FF, CR, space). -/
def isWhiteSpaceN (code : Nat) : Bool :=
  code == 32 || code == 9 || code == 10 || code == 11 || code == 12 || code == 13

/-- Modelled from the spec: whitespace except the linebreak (code 10). -/
def isWhiteSpaceExceptLinebreakN (code : Nat) : Bool :=
  isWhiteSpaceN code && code != 10

/-- Modelled from the spec: a JavaScript identifier-part character
(letters, digits, underscore, dollar). -/
def isJSIdentifierPartN (code : Nat) : Bool :=
  (48 ≤ code && code ≤ 57) || (65 ≤ code && code ≤ 90) ||
  (97 ≤ code && code ≤ 122) || code == 95 || code == 36

/-- Modelled from the spec: a JSX identifier-part character — a JS
identifier part or `-` (45) or `:` (58), so that tag and attribute names
such as `v-else-if` and closing tags such as `</b:name>` scan as units. -/
def isJSXIdentifierPartN (code : Nat) : Bool :=
  isJSIdentifierPartN code || code == 45 || code == 58

/-- A regex word character, `\w` of `tagNameRegexp`. -/
def isWordC (c : Char) : Bool :=
  isJSIdentifierPartN c.toNat && c.toNat != 36

/-- A regex whitespace character, `\s` of `tagNameRegexp`. -/
def isSpaceReC (c : Char) : Bool := isWhiteSpaceN c.toNat

/-- The final character class `[\{\w\/>]` of `tagNameRegexp`. -/
def isTagClsC (c : Char) : Bool :=
  c == '{' || isWordC c || c == '/' || c == '>'

/-- Matcher for `\s*` followed by the class `[\{\w\/>]`: skip whitespace (the class
contains no whitespace character, so maximal munch is exact), then one
class character. -/
def tagClsScan : List Char → Bool
  | [] => false
  | c :: cs => if isSpaceReC c then tagClsScan cs else isTagClsC c

/-- The optional `:?` of `tagNameRegexp` followed by `\s*[\{\w\/>]`. -/
def tagAfterWord (l : List Char) : Bool :=
  tagClsScan l ||
    (match l with
     | ':' :: cs => tagClsScan cs
     | _ => false)

/-- Existential semantics of `\w+` followed by `tagAfterWord`: after at
least one word character, either stop the `+` here or consume another
word character (this reproduces the regex engine's backtracking). -/
def tagWordRest : List Char → Bool
  | [] => false
  | c :: cs => tagAfterWord (c :: cs) || (isWordC c && tagWordRest cs)

/-- Exact decision procedure for `tagNameRegexp = /^<\w+:?\s*[\{\w\/>]/`
applied at the head of `l`. -/
def tagNameRegexpTest : List Char → Bool
  | '<' :: c :: cs => isWordC c && tagWordRest (c :: cs)
  | _ => false

/-- Embeds `this.char(index)`: JavaScript `charAt` yields `''` out of range,
modelled as `none`. -/
def charAtL (src : List Char) (i : Nat) : Option Char := src.get? i

/-- Embeds `this.charCode(index)`: `charCodeAt` yields `NaN` out of range,
modelled as `none`. -/
def charCodeAtL (src : List Char) (i : Nat) : Option Nat :=
  (charAtL src i).map Char.toNat

/-- Embeds `charAt` at a possibly negative index (the backward scans use them). -/
def charAtI (src : List Char) (i : Int) : Option Char :=
  if i < 0 then none else charAtL src i.toNat

/-- Embeds `charCodeAt` at a possibly negative index. -/
def charCodeAtI (src : List Char) (i : Int) : Option Nat :=
  (charAtI src i).map Char.toNat

/-- Embeds `this.isExpect(expect, index)`:
`source.slice(index, index + expect.length) === expect`. -/
def isExpectL (src : List Char) (expect : List Char) (i : Nat) : Bool :=
  decide ((src.drop i).take expect.length = expect)

/-- Embeds `this.getValue(start, index)`: `source.slice(start, index)`. -/
def getValueL (src : List Char) (start idx : Nat) : List Char :=
  (src.drop start).take (idx - start)

/-- Embeds `this.isTagStart(index)`: a `<` that begins an HTML comment or
matches `tagNameRegexp`. -/
def isTagStartL (src : List Char) (i : Nat) : Bool :=
  charAtL src i == some '<' &&
    (isExpectL src ['<', '!', '-', '-'] i || tagNameRegexpTest (src.drop i))

/-- Charwise whitespace test on an optional character (EOF is not
whitespace). -/
def isWsOpt : Option Char → Bool
  | some c => isWhiteSpaceN c.toNat
  | none => false

/-- The four kinds of element-like AST nodes distinguished by
`parseJSXElement`: plain element (`ASTTypes.JSXCommonElement`),
component (`JSXComponent`), `t:` template include (`JSXVdt`) and `b:`
block (`JSXBlock`). -/
inductive ElemKind where
  | common
  | component
  | vdt
  | block
deriving DecidableEq, Repr

/-- The AST node union of vdt (`ASTTypes` of `utils/types`, whose file is
not in the source sample; the constructors are exactly the node shapes
`parser.ts` builds).  The pointer `next` of an `if`-directive node is an
owned optional subtree: the parser only ever assigns it via the retained
`directiveIf` reference, which the pure embedding reaches by descending
the already-built chain (`chainAppend` below). -/
inductive ASTNode where
  | jsHoist (value : List Char) (loc : Loc)
  | js (value : List (List Char)) (spaces : Nat) (loc : Loc)
  | jsxString (value : List Char) (loc : Loc)
  | jsxStrings (value : List ASTNode) (loc : Loc)
  | jsxComment (value : List Char) (loc : Loc)
  | jsxText (value : List Char) (loc : Loc)
  | jsxExpressionNode (value : List ASTNode) (loc : Loc)
  | jsxUnescapeTextNode (value : List ASTNode) (loc : Loc)
  | jsxNone (loc : Loc)
  | jsxAttribute (name : List Char) (value : ASTNode) (loc : Loc)
  | jsxDirectiveIf (name : List Char) (value : ASTNode) (next : Option ASTNode) (loc : Loc)
  | element (kind : ElemKind) (value : List Char) (attributes : List ASTNode)
      (directives : List (List Char × ASTNode)) (children : List ASTNode)
      (keyed : Bool) (loc : Loc)
deriving Repr

/-- Constant `Directives.If` = the attribute name `v-if`. -/
def dIf : List Char := ['v', '-', 'i', 'f']

/-- Constant `Directives.ElseIf` = the attribute name `v-else-if`. -/
def dElseIf : List Char := ['v', '-', 'e', 'l', 's', 'e', '-', 'i', 'f']

/-- Constant `Directives.Else` = the attribute name `v-else`. -/
def dElse : List Char := ['v', '-', 'e', 'l', 's', 'e']

/-- Constant `Directives.Raw` = the attribute name `v-raw`. -/
def dRaw : List Char := ['v', '-', 'r', 'a', 'w']

/-- The `key` attribute name. -/
def keyAttrName : List Char := ['k', 'e', 'y']

/-- Modelled from the spec: the closed directive set `directivesMap` of
vdt `utils/helpers` (not in the source sample).  The spec names
`if`/`else-if`/`else`/`raw` plus further common directives; `key` is an
ordinary attribute, not a directive. -/
def directivesMapB (name : List Char) : Bool :=
  name == dIf || name == dElseIf || name == dElse || name == dRaw ||
  name == ['v', '-', 'f', 'o', 'r'] || name == ['v', '-', 'm', 'o', 'd', 'e', 'l']

/-- Lookup in the JS-object-like directive mapping (first match). -/
def dirLookup : List (List Char × ASTNode) → List Char → Option ASTNode
  | [], _ => none
  | (k, v) :: rest, key => if k = key then some v else dirLookup rest key

/-- Assignment in the JS-object-like directive mapping: overwrite the
existing entry in place, otherwise append (insertion order preserved,
exactly the JavaScript object semantics the parser relies on). -/
def dirSet : List (List Char × ASTNode) → List Char → ASTNode → List (List Char × ASTNode)
  | [], key, v => [(key, v)]
  | (k, w) :: rest, key, v =>
    if k = key then (key, v) :: rest else (k, w) :: dirSet rest key v

/-- Embeds `isElementNode` of vdt helpers: the node is one of the four
element-like kinds.  (Modelled from the spec; the helper file is not in
the source sample.) -/
def isElementNodeB : ASTNode → Bool
  | .element _ _ _ _ _ _ _ => true
  | _ => false

/-- The source location carried by a node (`node.loc`). -/
def nodeLoc : ASTNode → Loc
  | .jsHoist _ l => l
  | .js _ _ l => l
  | .jsxString _ l => l
  | .jsxStrings _ l => l
  | .jsxComment _ l => l
  | .jsxText _ l => l
  | .jsxExpressionNode _ l => l
  | .jsxUnescapeTextNode _ l => l
  | .jsxNone l => l
  | .jsxAttribute _ _ l => l
  | .jsxDirectiveIf _ _ _ l => l
  | .element _ _ _ _ _ _ l => l

/-- The `name` field of a directive or attribute node (`tmp.name` in the
error message of the chain check). -/
def dirNodeName : ASTNode → List Char
  | .jsxAttribute n _ _ => n
  | .jsxDirectiveIf n _ _ _ => n
  | _ => []

/-- The error message
`'NAME' must be lead with 'v-if' or 'v-else-if'` thrown by the chain
check of `parseJSXChildrenValue`. -/
def chainErrMsg (name : List Char) : List Char :=
  [squote] ++ name ++ [squote] ++ " must be lead with ".data ++
  [squote] ++ dIf ++ [squote] ++ " or ".data ++ [squote] ++ dElseIf ++ [squote]

/-- Descend `d` links along the `v-else-if` chain hanging off `e` and set
the final node's `next` to `x`.  This reconstructs, in the pure value
world, the single pointer write `directiveIf.next = child` when
`directiveIf` is the `else-if` directive node of the `d`-th chained
element.  `none` signals a dangling descent, which in JavaScript would be
a TypeError (it cannot occur for states the loop actually produces). -/
def chainTailAppend : Nat → ASTNode → ASTNode → Option ASTNode
  | d, .element kind v attrs dirs ch k loc, x =>
    match dirLookup dirs dElseIf with
    | some (.jsxDirectiveIf nm val nx l) =>
      match d with
      | 0 =>
        some (.element kind v attrs
          (dirSet dirs dElseIf (.jsxDirectiveIf nm val (some x) l)) ch k loc)
      | d' + 1 =>
        match nx with
        | some e1 =>
          (chainTailAppend d' e1 x).map fun e1' =>
            .element kind v attrs
              (dirSet dirs dElseIf (.jsxDirectiveIf nm val (some e1') l)) ch k loc
        | none => none
    | _ => none
  | _, _, _ => none

/-- The pointer write `directiveIf.next = child` when the open chain of
the head element `e` already holds `d` chained elements: for `d = 0` the
open node is `e`'s own `v-if` directive node, otherwise descend into the
chain.  `none` is a dangling descent (JavaScript TypeError). -/
def chainAppend : Nat → ASTNode → ASTNode → Option ASTNode
  | d, .element kind v attrs dirs ch k loc, x =>
    match dirLookup dirs dIf with
    | some (.jsxDirectiveIf nm val nx l) =>
      match d with
      | 0 =>
        some (.element kind v attrs
          (dirSet dirs dIf (.jsxDirectiveIf nm val (some x) l)) ch k loc)
      | d' + 1 =>
        match nx with
        | some e1 =>
          (chainTailAppend d' e1 x).map fun e1' =>
            .element kind v attrs
              (dirSet dirs dIf (.jsxDirectiveIf nm val (some e1') l)) ch k loc
        | none => none
    | _ => none
  | _, _, _ => none

/-- Apply the pointer write to the chain head sitting at position `p` of
the accumulated child list. -/
def chainSet (cs : List ASTNode) (p d : Nat) (x : ASTNode) : Option (List ASTNode) :=
  match cs.get? p with
  | some e => (chainAppend d e x).map fun e' => cs.set p e'
  | none => none

/-- State of the chain-splicing child loop of `parseJSXChildrenValue`:
the accumulated child list and, when a chain is open, the position of the
chain head in that list together with the number of elements already
chained (this pair is the pure counterpart of the retained `directiveIf`
node pointer). -/
structure SpliceSt where
  children : List ASTNode
  openIf : Option (Nat × Nat)
deriving Repr

/-- Computes `directives[Directives.ElseIf] || directives[Directives.Else]` with
the `isElse` flag: the chained directive node of `child`, if any. -/
def chainDir (dirs : List (List Char × ASTNode)) : Option (ASTNode × Bool) :=
  match dirLookup dirs dElseIf with
  | some t => some (t, false)
  | none =>
    match dirLookup dirs dElse with
    | some t => some (t, true)
    | none => none

/-- One iteration of the chain-splicing logic of the child loop of
`parseJSXChildrenValue` (parser.ts lines 491-513) applied to the next
parsed child.  `dev` is `process.env.NODE_ENV !== 'production'`.  An
element with a `v-if` directive is pushed and opens a chain; an element
with a `v-else-if`/`v-else` directive is spliced out and linked via the
open chain's `next` pointer (a parse error in development, a TypeError in
production, when no chain is open); everything else is pushed. -/
def spliceStep (dev : Bool) (st : SpliceSt) (child : ASTNode) : Except Err SpliceSt :=
  match child with
  | .element _ _ _ dirs _ _ loc =>
    if (dirLookup dirs dIf).isSome then
      .ok ⟨st.children ++ [child], some (st.children.length, 0)⟩
    else
      match chainDir dirs with
      | some (tmp, isElse) =>
        if dev && st.openIf == none then
          .error (.parseError (chainErrMsg (dirNodeName tmp)) loc)
        else
          match st.openIf with
          | none => .error .typeError
          | some (p, d) =>
            match chainSet st.children p d child with
            | some cs' => .ok ⟨cs', if isElse then none else some (p, d + 1)⟩
            | none => .error .typeError
      | none => .ok ⟨st.children ++ [child], st.openIf⟩
  | _ => .ok ⟨st.children ++ [child], st.openIf⟩

/-- The chain-splicing loop folded over an already-parsed child sequence,
starting from an empty child list with no open chain — exactly what the
child loop of `parseJSXChildrenValue` computes from the successive
results of `parseJSXChild`. -/
def spliceChildren (dev : Bool) (inp : List ASTNode) : Except Err SpliceSt :=
  inp.foldlM (spliceStep dev) ⟨[], none⟩

/-- Overwrite the `next` pointer of the `v-if` directive node of `e`
(identity when `e` has no such node — the callers establish it has). -/
def setIfNext (e x : ASTNode) : ASTNode :=
  match e with
  | .element kind v attrs dirs ch k loc =>
    match dirLookup dirs dIf with
    | some (.jsxDirectiveIf nm val _ l) =>
      .element kind v attrs (dirSet dirs dIf (.jsxDirectiveIf nm val (some x) l)) ch k loc
    | _ => e
  | _ => e

/-- Overwrite the `next` pointer of the `v-else-if` directive node of
`e`. -/
def setElseIfNext (e x : ASTNode) : ASTNode :=
  match e with
  | .element kind v attrs dirs ch k loc =>
    match dirLookup dirs dElseIf with
    | some (.jsxDirectiveIf nm val _ l) =>
      .element kind v attrs (dirSet dirs dElseIf (.jsxDirectiveIf nm val (some x) l)) ch k loc
    | _ => e
  | _ => e

/-- The fully linked tail of a chain: each element's `v-else-if` node
points at the next element, the last element keeps its `next`. -/
def linkTail1 (e : ASTNode) : List ASTNode → ASTNode
  | [] => e
  | f :: r => setElseIfNext e (linkTail1 f r)

/-- The fully linked chain: the head's `v-if` node points at the linked
tail; document order is preserved by construction. -/
def linkChain (h : ASTNode) : List ASTNode → ASTNode
  | [] => h
  | e :: r => setIfNext h (linkTail1 e r)

/-- Tests that `e` is an element whose `v-if` directive entry is a directive-if
node (the shape `parseJSXAttribute` always builds). -/
def hasIfDirNode : ASTNode → Bool
  | .element _ _ _ dirs _ _ _ =>
    match dirLookup dirs dIf with
    | some (.jsxDirectiveIf _ _ _ _) => true
    | _ => false
  | _ => false

/-- Tests that `e` is an element whose `v-else-if` directive entry is a
directive-if node. -/
def hasElseIfDirNode : ASTNode → Bool
  | .element _ _ _ dirs _ _ _ =>
    match dirLookup dirs dElseIf with
    | some (.jsxDirectiveIf _ _ _ _) => true
    | _ => false
  | _ => false

/-- Tests that `e` is an element whose `v-else` directive entry is a directive-if
node. -/
def hasElseDirNode : ASTNode → Bool
  | .element _ _ _ dirs _ _ _ =>
    match dirLookup dirs dElse with
    | some (.jsxDirectiveIf _ _ _ _) => true
    | _ => false
  | _ => false

/-- The truthiness test `directives[Directives.If]` used by the loop. -/
def hasIfEntry : ASTNode → Bool
  | .element _ _ _ dirs _ _ _ => (dirLookup dirs dIf).isSome
  | _ => false

/-- The truthiness test `directives[Directives.ElseIf]`. -/
def hasElseIfEntry : ASTNode → Bool
  | .element _ _ _ dirs _ _ _ => (dirLookup dirs dElseIf).isSome
  | _ => false

/-- The truthiness test `directives[Directives.Else]`. -/
def hasElseEntry : ASTNode → Bool
  | .element _ _ _ dirs _ _ _ => (dirLookup dirs dElse).isSome
  | _ => false

/-- A chain-continuing element: carries `v-else-if` (as a directive-if
node) and no `v-if` entry. -/
def isChainMid (e : ASTNode) : Bool :=
  !hasIfEntry e && hasElseIfDirNode e

/-- A chain-closing element: carries `v-else` (as a directive-if node),
no `v-else-if` and no `v-if` entry. -/
def isChainLastElse (e : ASTNode) : Bool :=
  !hasIfEntry e && !hasElseIfEntry e && hasElseDirNode e

/-- A well-formed chain tail: every element but the last continues the
chain with `v-else-if`; the last either continues with `v-else-if` or
closes with `v-else`. -/
def chainTailOK : List ASTNode → Bool
  | [] => true
  | [e] => isChainMid e || isChainLastElse e
  | e :: rest => isChainMid e && chainTailOK rest

/-- Whether the chain tail ends with a closing `v-else` (so the loop's
`directiveIf` is reset to `null` afterwards). -/
def chainClosed (tail : List ASTNode) : Bool :=
  match tail.getLast? with
  | some e => isChainLastElse e
  | none => false

/-- The keyword prefix recognised by `isJSImport` (the word and one
space). -/
def importKw : List Char := ['i', 'm', 'p', 'o', 'r', 't', ' ']

/-- Modelled from the spec: `selfClosingTags` of vdt helpers (not in the
source sample) — the fixed allow-list of HTML void tags. -/
def selfClosingTagsB (tag : List Char) : Bool :=
  ["area", "base", "br", "col", "embed", "hr", "img", "input", "link",
   "meta", "param", "source", "track", "wbr"].any (fun t => t.data == tag)

/-- Modelled from the spec: `textTags` of vdt helpers (not in the source
sample) — the verbatim-content elements whose children become a text
attribute. -/
def textTagsB (tag : List Char) : Bool :=
  ["style", "script", "textarea"].any (fun t => t.data == tag)

/-- Trim trailing whitespace characters from one line. -/
def trimRightLineL (l : List Char) : List Char :=
  (l.reverse.dropWhile (fun c => isWhiteSpaceN c.toNat)).reverse

/-- Modelled from the spec: `trimRight` of vdt helpers (not in the
source sample) — trailing whitespace of the whole source is removed by
the Parser constructor. -/
def trimRightL (src : List Char) : List Char := trimRightLineL src

/-- Embeds `trimRightForValue` (parser.ts 806-829) seen from the end of the
line list: drop whole trailing whitespace-only lines, then right-trim
the first remaining line. -/
def trimRightForValueGo : List (List Char) → List (List Char)
  | [] => []
  | l :: rest =>
    if l.all (fun c => isWhiteSpaceN c.toNat) then trimRightForValueGo rest
    else trimRightLineL l :: rest

/-- Embeds `trimRightForValue` on the accumulated line list. -/
def trimRightForValueL (v : List (List Char)) : List (List Char) :=
  (trimRightForValueGo v.reverse).reverse

/-- Backward scan of `getFirstSpaceColumn` (parser.ts 731-754): walk
left from `start`, remembering where the last run of spaces began, and
stop at a newline or offset 0. -/
def gfscGo (src : List Char) : Nat → Bool → Nat → Nat
  | 0, hasSet, uStart => if hasSet then uStart else 0
  | start + 1, hasSet, uStart =>
    if charAtL src (start + 1) == some nlC then
      (if hasSet then uStart else start + 1)
    else if charAtL src (start + 1) == some ' ' then
      gfscGo src start true (if hasSet then uStart else start + 1)
    else gfscGo src start false uStart

/-- Embeds `getFirstSpaceColumn`: the column of the first character of the
current run, used to normalise embedded script indentation. -/
def getFirstSpaceColumn (src : List Char) (index column : Nat) : Nat :=
  column - (index - gfscGo src (index - 1) false 0)

/-- Whitespace-except-linebreak skip of `getLastCharCode`
(parser.ts 699-729), scanning backwards. -/
def glccSkipWs (src : List Char) : Nat → Int → Int
  | 0, start => start
  | n + 1, start =>
    if 0 ≤ start then
      match charCodeAtI src start with
      | some code =>
        if isWhiteSpaceExceptLinebreakN code then glccSkipWs src n (start - 1) else start
      | none => start
    else start

/-- Backward search for the `/*` opening a block comment whose closing
`*/` was just seen by `getLastCharCode`. -/
def glccFindCommentOpen (src : List Char) : Nat → Int → Int
  | 0, start => start
  | n + 1, start =>
    if 0 ≤ start then
      if charAtI src start == some '*' && charAtI src (start - 1) == some '/' then start - 2
      else glccFindCommentOpen src n (start - 1)
    else start

/-- Single block-comment skip of `getLastCharCode` (the inner loop runs
at most once per outer iteration because of its unconditional break). -/
def glccSkipComment (src : List Char) (fuel : Nat) (start : Int) : Int :=
  if charAtI src start == some '/' && charAtI src (start - 1) == some '*' then
    glccFindCommentOpen src fuel (start - 2)
  else start

/-- The do-while fixpoint of `getLastCharCode`: interleave the
whitespace skip and the comment skip until the position stops moving. -/
def glccGo (src : List Char) : Nat → Int → Int
  | 0, start => start
  | n + 1, start =>
    let s1 := glccSkipWs src (src.length + 2) start
    let s2 := glccSkipComment src (src.length + 2) s1
    if s2 == start then start else glccGo src n s2

/-- Embeds `getLastCharCode`: the code of the previous significant character
(skipping spaces, tabs and block comments), `none` when the scan runs
off the front of the source (JavaScript `NaN`). -/
def getLastCharCodeP (src : List Char) (index : Nat) : Option Nat :=
  charCodeAtI src (glccGo src (src.length + 2) ((index : Int) - 1))

/-- The first non-whitespace position at or after `i`, used by the
lookahead of `skipWhitespaceBetweenTags` (fuel-indexed; any fuel above
`src.length + 1` is enough). -/
def firstNonWsIndex (src : List Char) : Nat → Nat → Option Nat
  | 0, _ => none
  | fuel + 1, i =>
    if i < src.length then
      if isWsOpt (charAtL src i) then firstNonWsIndex src fuel (i + 1) else some i
    else none

/-- The string/regular-expression-literal detection condition of
`scanJS` (parser.ts 139-153), with JavaScript truthiness made explicit:
a missing character (`charAt` out of range) and the character code `0`
are falsy; `getLastCharCode` returning `NaN` (modelled `none`) is
falsy. -/
def isStrOrRegexStart (ctx : Ctx) (i : Nat) (ch : Option Char) : Bool :=
  ch == some squote || ch == some dquote || ch == some btick ||
  (ch == some '/' &&
    (match charAtL ctx.source (i + 1) with
     | some t => t != '*' && t != '/'
     | none => false) &&
    (i == 0 ||
      ((match charAtL ctx.source (i - 1) with
        | some t => t != '<'
        | none => false) &&
       (match getLastCharCodeP ctx.source i with
        | some c => c != 0 && !isJSIdentifierPartN c && c != 41
        | none => false))))

/-- A stop condition of `scanJSXText`: a literal string, or the function
closure `() => this.isExpect(endTag) || this.isTagStart()` used by
`parseJSXChild`. -/
inductive StopCond where
  | lit (str : List Char)
  | endOrTag (endTag : List Char)

/-- Evaluate a stop condition at a source position. -/
def evalStop (ctx : Ctx) : StopCond → Nat → Bool
  | .lit t, i => isExpectL ctx.source t i
  | .endOrTag t, i => isExpectL ctx.source t i || isTagStartL ctx.source i

/-- The result record of `parseJSXAttribute`. -/
structure AttrRes where
  attributes : List ASTNode
  directives : List (List Char × ASTNode)
  keyed : Bool
  hasVRaw : Bool

/-- The routing tail of one attribute-loop iteration
(parser.ts 367-380): conditional directives become directive-if nodes in
the directive mapping; other directive names go to the directive mapping
as plain attribute nodes (flipping `hasVRaw` for `v-raw`); everything
else is appended to the attribute list. -/
def attrRoute (acc : AttrRes) (name : List Char) (value : ASTNode) (loc : Loc) : AttrRes :=
  if name = dIf ∨ name = dElseIf ∨ name = dElse then
    { acc with directives := dirSet acc.directives name (.jsxDirectiveIf name value none loc) }
  else
    let attr := ASTNode.jsxAttribute name value loc
    if directivesMapB name then
      { acc with hasVRaw := acc.hasVRaw || name == dRaw,
                 directives := dirSet acc.directives name attr }
    else
      { acc with attributes := acc.attributes ++ [attr] }

/-- Embeds `expression.value.length` of the dynamic-attribute branch. -/
def exprValueLen : ASTNode → Nat
  | .jsxExpressionNode v _ => v.length
  | .jsxUnescapeTextNode v _ => v.length
  | _ => 0

/-- The development guard of parser.ts line 358 exactly as written in
the source: `process.env.NODE_ENV !== 'produdction'` — note the
misspelled right-hand side, which makes the comparison true even for
`NODE_ENV === 'production'`. -/
def devGuard358 (env : List Char) : Bool := env != "produdction".data

/-- The correctly spelled development guard used at parser.ts lines 282,
387 and 503: `process.env.NODE_ENV !== 'production'`. -/
def devGuard (env : List Char) : Bool := env != "production".data

/-- Modelled from the spec: `validateDirectiveValue` of vdt
`utils/validate` (not in the source sample) — development-mode
structural validation ("directive misuse on an incompatible tag").
Modelled rule: `v-if`/`v-else-if` require an expression value, `v-else`
requires no value; other directives are unconstrained. -/
def validateDirectiveValueE (name : List Char) (value : ASTNode) (loc : Loc) : Except Err Unit :=
  if name = dIf ∨ name = dElseIf then
    match value with
    | .jsxExpressionNode _ _ => .ok ()
    | _ => .error (.parseError ("Directive ".data ++ name ++ " must take an expression value".data) loc)
  else if name = dElse then
    match value with
    | .jsxNone _ => .ok ()
    | _ => .error (.parseError ("Directive ".data ++ name ++ " must not take a value".data) loc)
  else .ok ()

/-- Modelled from the spec: `validateAttributeForBlock` of vdt
`utils/validate` (not in the source sample) — development-mode
structural validation ("invalid attribute on a block directive").
Modelled rule: a `b:` block accepts only directive attributes and
`args`. -/
def validateAttributeForBlockE (tag name : List Char) (value : ASTNode) (loc : Loc) : Except Err Unit :=
  if directivesMapB name || name == "args".data then .ok ()
  else .error (.parseError ("Invalid attribute ".data ++ name ++ " on block ".data ++ tag) loc)

/-- Modelled from the spec: `validateModel` of vdt `utils/validate` (not
in the source sample).  Form-control value binding is outside the spec's
scope (the spec excludes "DOM form-control helper shims"), so it is
modelled as never raising. -/
def validateModelE (tag : List Char) (kind : ElemKind) (attrs : List ASTNode) : Except Err Unit :=
  .ok ()

/-- The validation block of one attribute-loop iteration
(parser.ts 358-365): guarded by the misspelled `devGuard358`, run
`validateDirectiveValue` for directive names and
`validateAttributeForBlock` for attributes of `b:` blocks. -/
def attrValidateE (ctx : Ctx) (kind : ElemKind) (tag name : List Char) (value : ASTNode) :
    Except Err Unit :=
  if devGuard358 ctx.env then
    match (if directivesMapB name then validateDirectiveValueE name value (nodeLoc value) else .ok ()) with
    | .error e => .error e
    | .ok () =>
      if kind == .block then validateAttributeForBlockE tag name value (nodeLoc value) else .ok ()
  else .ok ()

/-- Embeds `this.getLocation()`. -/
def getLocP (s : PS) : Loc := ⟨s.line, s.column⟩

/-- Embeds `this.updateIndex(n)` as a state transformer (the returned old index
is recovered by the caller from the input state where needed). -/
def updIndexP (n : Nat) (s : PS) : PS :=
  { s with index := s.index + n, column := s.column + n }

/-- Embeds `this.updateLine()`. -/
def updLineP (s : PS) : PS :=
  { s with line := s.line + 1, column := 0 }

/-- Embeds `this.expect(str, msg?, loc?)` (parser.ts 764-769): consume the
literal or raise a located parse error (defaulting to the current
location and to the message `Expect string STR`). -/
def expectP (ctx : Ctx) (str : List Char) (msg : Option (List Char)) (loc : Option Loc)
    (s : PS) : PRes Unit :=
  if isExpectL ctx.source str s.index then .ok ((), updIndexP str.length s)
  else .error (.parseError (msg.getD ("Expect string ".data ++ str)) (loc.getD (getLocP s)))

/-- Loop state of `scanJS`: the accumulated line list, the slice start,
the remaining indentation to strip on the current line, the at-line-start
flag and the counted extra leading spaces. -/
structure ScanJSAcc where
  value : List (List Char)
  start : Nat
  spacesRemain : Nat
  newLine : Bool
  leadSpaces : Nat

/-- The record of all parser methods at one fuel level.  The Parser
class methods are mutually recursive; the embedding ties the knot by
plain structural recursion on the fuel (`pFuns` below), which keeps
every definition kernel-reducible. -/
structure PFuns where
  parse : Ctx → Bool → Nat → PS → PRes (List ASTNode)
  parseLoop : Ctx → Bool → Nat → Int → List ASTNode → PS → PRes (List ASTNode)
  advance : Ctx → Int → Bool → Nat → PS → PRes (ASTNode × Int)
  scanJSImport : Ctx → PS → PRes ASTNode
  scanJSImportLoop : Ctx → PS → PRes Unit
  scanJSImportSemis : Ctx → PS → PRes Unit
  scanJS : Ctx → Int → Bool → Nat → PS → PRes (ASTNode × Int)
  scanJSLoop : Ctx → Bool → Nat → ScanJSAcc → Int → PS → PRes (ScanJSAcc × Int × Bool)
  scanJSX : Ctx → PS → PRes ASTNode
  scanString : Ctx → PS → PRes ASTNode
  scanStringLoop : Ctx → Option Char → List Char → PS → PRes (List Char × Bool)
  parseJSXComment : Ctx → PS → PRes ASTNode
  jsxCommentLoop : Ctx → PS → PRes Unit
  parseJSXElement : Ctx → PS → PRes ASTNode
  parseJSXElementRest : Ctx → ElemKind → Nat → Loc → PS → PRes ASTNode
  identLoop : Ctx → PS → PRes Unit
  parseJSXAttribute : Ctx → List Char → ElemKind → PS → PRes AttrRes
  parseJSXAttrLoop : Ctx → List Char → ElemKind → AttrRes → PS → PRes AttrRes
  parseJSXAttributeName : Ctx → PS → PRes (List Char)
  parseJSXAttributeValue : Ctx → PS → PRes ASTNode
  parseJSXChildren :
    Ctx → List Char → ElemKind → List ASTNode → Bool → Loc → PS →
      PRes (List ASTNode × List ASTNode)
  parseJSXChildrenValue :
    Ctx → List Char → ElemKind → Bool → Bool → Loc → PS → PRes (List ASTNode)
  vRawChildrenLoop : Ctx → List Char → List ASTNode → PS → PRes (List ASTNode)
  childrenLoop : Ctx → List Char → Bool → SpliceSt → PS → PRes SpliceSt
  parseJSXChild : Ctx → List Char → Bool → PS → PRes ASTNode
  parseJSXClosingTag : Ctx → List Char → Loc → PS → PRes Unit
  scanJSXText : Ctx → List StopCond → PS → PRes ASTNode
  jsxTextLoop : Ctx → List StopCond → PS → PRes Unit
  parseJSXExpressionInner : Ctx → PS → PRes (Bool × List ASTNode × Loc)
  parseJSXExpression : Ctx → PS → PRes ASTNode
  skipWhitespace : Ctx → PS → PRes Unit
  skipJSComment : Ctx → PS → PRes Unit
  lineCommentLoop : Ctx → PS → PRes Unit
  blockCommentLoop : Ctx → PS → PRes Unit
  skipWSAndComment : Ctx → PS → PRes Unit
  skipWSBetweenTags : Ctx → List Char → Bool → PS → PRes Unit

/-- Fuel exhaustion: every method reports `outOfFuel`. -/
def pFail : PFuns where
  parse := fun _ _ _ _ => .error .outOfFuel
  parseLoop := fun _ _ _ _ _ _ => .error .outOfFuel
  advance := fun _ _ _ _ _ => .error .outOfFuel
  scanJSImport := fun _ _ => .error .outOfFuel
  scanJSImportLoop := fun _ _ => .error .outOfFuel
  scanJSImportSemis := fun _ _ => .error .outOfFuel
  scanJS := fun _ _ _ _ _ => .error .outOfFuel
  scanJSLoop := fun _ _ _ _ _ _ => .error .outOfFuel
  scanJSX := fun _ _ => .error .outOfFuel
  scanString := fun _ _ => .error .outOfFuel
  scanStringLoop := fun _ _ _ _ => .error .outOfFuel
  parseJSXComment := fun _ _ => .error .outOfFuel
  jsxCommentLoop := fun _ _ => .error .outOfFuel
  parseJSXElement := fun _ _ => .error .outOfFuel
  parseJSXElementRest := fun _ _ _ _ _ => .error .outOfFuel
  identLoop := fun _ _ => .error .outOfFuel
  parseJSXAttribute := fun _ _ _ _ => .error .outOfFuel
  parseJSXAttrLoop := fun _ _ _ _ _ => .error .outOfFuel
  parseJSXAttributeName := fun _ _ => .error .outOfFuel
  parseJSXAttributeValue := fun _ _ => .error .outOfFuel
  parseJSXChildren := fun _ _ _ _ _ _ _ => .error .outOfFuel
  parseJSXChildrenValue := fun _ _ _ _ _ _ _ => .error .outOfFuel
  vRawChildrenLoop := fun _ _ _ _ => .error .outOfFuel
  childrenLoop := fun _ _ _ _ _ => .error .outOfFuel
  parseJSXChild := fun _ _ _ _ => .error .outOfFuel
  parseJSXClosingTag := fun _ _ _ _ => .error .outOfFuel
  scanJSXText := fun _ _ _ => .error .outOfFuel
  jsxTextLoop := fun _ _ _ => .error .outOfFuel
  parseJSXExpressionInner := fun _ _ => .error .outOfFuel
  parseJSXExpression := fun _ _ => .error .outOfFuel
  skipWhitespace := fun _ _ => .error .outOfFuel
  skipJSComment := fun _ _ => .error .outOfFuel
  lineCommentLoop := fun _ _ => .error .outOfFuel
  blockCommentLoop := fun _ _ => .error .outOfFuel
  skipWSAndComment := fun _ _ => .error .outOfFuel
  skipWSBetweenTags := fun _ _ _ _ => .error .outOfFuel

/-- One fuel level of the Parser class: every method body is the direct
transcription of parser.ts, with every (mutually) recursive call going
through the previous level `p`. -/
def pStep (p : PFuns) : PFuns where
  /- `parse(isRoot, spaces)` (parser.ts 75-86): read nodes until the end
  of input or a negative brace count. -/
  parse := fun ctx isRoot spaces s => p.parseLoop ctx isRoot spaces 0 [] s
  /- The while loop of `parse`. -/
  parseLoop := fun ctx isRoot spaces braces acc s =>
    if decide (s.index < ctx.source.length) && decide (0 ≤ braces) then
      match p.advance ctx braces isRoot spaces s with
      | .error e => .error e
      | .ok ((node, braces'), s') => p.parseLoop ctx isRoot spaces braces' (acc ++ [node]) s'
    else .ok (acc, s)
  /- `advance` (parser.ts 88-97): dispatch on the leading character. -/
  advance := fun ctx braces isRoot spaces s =>
    let ch := charAtL ctx.source s.index
    if isRoot && isExpectL ctx.source importKw s.index then
      match p.scanJSImport ctx s with
      | .error e => .error e
      | .ok (node, s') => .ok ((node, braces), s')
    else if ch != some '<' then
      p.scanJS ctx braces isRoot spaces s
    else
      match p.scanJSX ctx s with
      | .error e => .error e
      | .ok (node, s') => .ok ((node, braces), s')
  /- `scanJSImport` (parser.ts 99-123). -/
  scanJSImport := fun ctx s =>
    let start := s.index
    let loc := getLocP s
    match p.scanJSImportLoop ctx (updIndexP 7 s) with
    | .error e => .error e
    | .ok ((), s2) => .ok (.jsHoist (getValueL ctx.source start s2.index) loc, s2)
  /- The while loop of `scanJSImport`: advance to the module string,
  scan it, then consume trailing comments and semicolons. -/
  scanJSImportLoop := fun ctx s =>
    if s.index < ctx.source.length then
      match charAtL ctx.source s.index with
      | some c =>
        if c == squote || c == dquote then
          match p.scanString ctx s with
          | .error e => .error e
          | .ok (_, s1) => p.scanJSImportSemis ctx s1
        else p.scanJSImportLoop ctx (updIndexP 1 s)
      | none => .ok ((), s)
    else .ok ((), s)
  /- The do-while of `scanJSImport`: skip whitespace/comments and a
  semicolon until the position stops moving. -/
  scanJSImportSemis := fun ctx s =>
    match p.skipWSAndComment ctx s with
    | .error e => .error e
    | .ok ((), s1) =>
      let s2 := if charAtL ctx.source s1.index == some ';' then updIndexP 1 s1 else s1
      if s2.index == s.index then .ok ((), s2) else p.scanJSImportSemis ctx s2
  /- `scanJS` (parser.ts 125-198). -/
  scanJS := fun ctx braces isRoot spaces s =>
    let loc := getLocP s
    match p.scanJSLoop ctx isRoot spaces ⟨[], s.index, spaces, true, 0⟩ braces s with
    | .error e => .error e
    | .ok ((acc, braces', shouldTrimRight), s1) =>
      let value := acc.value ++ [getValueL ctx.source acc.start s1.index]
      let value := if shouldTrimRight then trimRightForValueL value else value
      .ok ((.js value acc.leadSpaces loc, braces'), s1)
  /- The while loop of `scanJS`. -/
  scanJSLoop := fun ctx isRoot spaces acc braces s =>
    if s.index < ctx.source.length then
      match p.skipJSComment ctx s with
      | .error e => .error e
      | .ok ((), s1) =>
        let ch := charAtL ctx.source s1.index
        if isStrOrRegexStart ctx s1.index ch then
          match p.scanString ctx s1 with
          | .error e => .error e
          | .ok (_, s2) => p.scanJSLoop ctx isRoot spaces acc braces s2
        else if isTagStartL ctx.source s1.index then .ok ((acc, braces, false), s1)
        else if isRoot && isExpectL ctx.source importKw s1.index then .ok ((acc, braces, false), s1)
        else if ch == some nlC then
          let acc' : ScanJSAcc :=
            ⟨acc.value ++ [getValueL ctx.source acc.start s1.index], s1.index + 1, spaces, true, 0⟩
          p.scanJSLoop ctx isRoot spaces acc' braces (updIndexP 1 (updLineP s1))
        else if acc.newLine && ch == some ' ' then
          let acc' :=
            if acc.spacesRemain != 0 then
              { acc with spacesRemain := acc.spacesRemain - 1, start := acc.start + 1 }
            else { acc with leadSpaces := acc.leadSpaces + 1 }
          p.scanJSLoop ctx isRoot spaces acc' braces (updIndexP 1 s1)
        else if ch == some '{' then
          p.scanJSLoop ctx isRoot spaces { acc with newLine := false } (braces + 1) (updIndexP 1 s1)
        else if decide (0 < braces) && ch == some '}' then
          p.scanJSLoop ctx isRoot spaces { acc with newLine := false } (braces - 1) (updIndexP 1 s1)
        else if isExpectL ctx.source ctx.d1 s1.index then
          .ok ((acc, braces - 1, true), s1)
        else
          p.scanJSLoop ctx isRoot spaces { acc with newLine := false } braces (updIndexP 1 s1)
    else .ok ((acc, braces, false), s)
  /- `scanJSX` (parser.ts 200-207). -/
  scanJSX := fun ctx s =>
    match expectP ctx ['<'] none none s with
    | .error e => .error e
    | .ok ((), s1) =>
      if isExpectL ctx.source ['!', '-', '-'] s1.index then p.parseJSXComment ctx s1
      else p.parseJSXElement ctx s1
  /- `scanString` (parser.ts 209-238). -/
  scanString := fun ctx s =>
    let loc := getLocP s
    let quote := charAtL ctx.source s.index
    match p.scanStringLoop ctx quote [] (updIndexP 1 s) with
    | .error e => .error e
    | .ok ((str, closed), s2) =>
      if closed then .ok (.jsxString str loc, s2)
      else .error (.parseError "Unclosed quote".data loc)
  /- The while loop of `scanString`, accumulating the unescaped
  value. -/
  scanStringLoop := fun ctx quote str s =>
    if s.index < ctx.source.length then
      match charAtL ctx.source s.index with
      | some ch =>
        let s1 := if ch.toNat == 10 then updLineP s else s
        let s2 := updIndexP 1 s1
        if some ch == quote then .ok ((str, true), s2)
        else if ch == '\\' then
          let esc := match charAtL ctx.source s2.index with
                     | some e => [e]
                     | none => []
          p.scanStringLoop ctx quote (str ++ esc) (updIndexP 1 s2)
        else p.scanStringLoop ctx quote (str ++ [ch]) s2
      | none => .ok ((str, false), s)
    else .ok ((str, false), s)
  /- `parseJSXComment` (parser.ts 289-307). -/
  parseJSXComment := fun ctx s =>
    match expectP ctx ['!', '-', '-'] none none s with
    | .error e => .error e
    | .ok ((), s1) =>
      let start := s1.index
      let loc := getLocP s1
      match p.jsxCommentLoop ctx s1 with
      | .error e => .error e
      | .ok ((), s2) =>
        let value := getValueL ctx.source start s2.index
        match expectP ctx "-->".data none none s2 with
        | .error e => .error e
        | .ok ((), s3) => .ok (.jsxComment value loc, s3)
  /- The while loop of `parseJSXComment`. -/
  jsxCommentLoop := fun ctx s =>
    if s.index < ctx.source.length then
      if isExpectL ctx.source "-->".data s.index then .ok ((), s)
      else
        let s1 := if charCodeAtL ctx.source s.index == some 10 then updLineP s else s
        p.jsxCommentLoop ctx (updIndexP 1 s1)
    else .ok ((), s)
  /- `parseJSXElement` (parser.ts 240-287): classify by the tag's first
  character, then scan the tag name and hand over to the shared rest. -/
  parseJSXElement := fun ctx s =>
    let flag := charCodeAtL ctx.source s.index
    let loc := getLocP s
    let start := s.index
    let upper := match flag with
                 | some f => decide (65 ≤ f) && decide (f ≤ 90)
                 | none => false
    if upper then p.parseJSXElementRest ctx .component start loc s
    else if charCodeAtL ctx.source (s.index + 1) == some 58 then
      if flag == some 116 then p.parseJSXElementRest ctx .vdt (start + 2) loc (updIndexP 2 s)
      else if flag == some 98 then p.parseJSXElementRest ctx .block (start + 2) loc (updIndexP 2 s)
      else
        .error (.parseError
          ("Unknown directive ".data ++
            (match flag with
             | some f => [Char.ofNat f]
             | none => []) ++ [':']) (getLocP s))
    else p.parseJSXElementRest ctx .common start loc s
  /- The shared tail of `parseJSXElement`: tag-name scan, attributes,
  children, development-mode `validateModel`, node construction. -/
  parseJSXElementRest := fun ctx kind start loc s =>
    match p.identLoop ctx s with
    | .error e => .error e
    | .ok ((), s1) =>
      let value := getValueL ctx.source start s1.index
      match p.parseJSXAttribute ctx value kind s1 with
      | .error e => .error e
      | .ok (ar, s2) =>
        match p.parseJSXChildren ctx value kind ar.attributes ar.hasVRaw loc s2 with
        | .error e => .error e
        | .ok ((children, attrs'), s3) =>
          match (if devGuard ctx.env then validateModelE value kind attrs' else .ok ()) with
          | .error e => .error e
          | .ok () => .ok (.element kind value attrs' ar.directives children ar.keyed loc, s3)
  /- The JSX-identifier scan loop shared by tag names, attribute names
  and closing tags. -/
  identLoop := fun ctx s =>
    if s.index < ctx.source.length then
      match charCodeAtL ctx.source s.index with
      | some code =>
        if isJSXIdentifierPartN code then p.identLoop ctx (updIndexP 1 s) else .ok ((), s)
      | none => .ok ((), s)
    else .ok ((), s)
  /- `parseJSXAttribute` (parser.ts 309-384). -/
  parseJSXAttribute := fun ctx tag kind s => p.parseJSXAttrLoop ctx tag kind ⟨[], [], false, false⟩ s
  /- The while loop of `parseJSXAttribute`. -/
  parseJSXAttrLoop := fun ctx tag kind acc s =>
    if s.index < ctx.source.length then
      match p.skipWhitespace ctx s with
      | .error e => .error e
      | .ok ((), s1) =>
        let c := charAtL ctx.source s1.index
        if c == some '/' || c == some '>' then .ok (acc, s1)
        else if isExpectL ctx.source ctx.d0 s1.index then
          match p.parseJSXExpression ctx s1 with
          | .error e => .error e
          | .ok (expr, s2) =>
            let acc' := if exprValueLen expr != 0 then
                          { acc with attributes := acc.attributes ++ [expr] }
                        else acc
            p.parseJSXAttrLoop ctx tag kind acc' s2
        else
          let loc := getLocP s1
          match p.parseJSXAttributeName ctx s1 with
          | .error e => .error e
          | .ok (name, s2) =>
            let keyed1 := acc.keyed || name == keyAttrName
            match (if charAtL ctx.source s2.index == some '=' then
                     p.parseJSXAttributeValue ctx (updIndexP 1 s2)
                   else (.ok (ASTNode.jsxNone (getLocP s2), s2) : PRes ASTNode)) with
            | .error e => .error e
            | .ok (value, s3) =>
              match attrValidateE ctx kind tag name value with
              | .error e => .error e
              | .ok () =>
                p.parseJSXAttrLoop ctx tag kind
                  (attrRoute { acc with keyed := keyed1 } name value loc) s3
    else .ok (acc, s)
  /- `parseJSXAttributeName` (parser.ts 386-404). -/
  parseJSXAttributeName := fun ctx s =>
    if devGuard ctx.env &&
       !(match charCodeAtL ctx.source s.index with
         | some code => isJSXIdentifierPartN code
         | none => false) then
      .error (.parseError
        ("Unexpected identifier ".data ++
          (match charAtL ctx.source s.index with
           | some c => [c]
           | none => [])) (getLocP s))
    else
      let start := s.index
      match p.identLoop ctx s with
      | .error e => .error e
      | .ok ((), s1) => .ok (getValueL ctx.source start s1.index, s1)
  /- `parseJSXAttributeValue` (parser.ts 406-420). -/
  parseJSXAttributeValue := fun ctx s =>
    if isExpectL ctx.source ctx.d0 s.index then p.parseJSXExpression ctx s
    else
      let quote := charAtL ctx.source s.index
      if quote == some squote || quote == some dquote || quote == some btick then
        p.scanString ctx s
      else .error (.parseError "String value of attribute must start with a quote.".data (getLocP s))
  /- `parseJSXChildren` (parser.ts 422-459): returns the children and
  the possibly extended attribute list (text tags turn their content
  into a `value`/`innerHTML` attribute). -/
  parseJSXChildren := fun ctx tag kind attributes hasVRaw loc s =>
    if kind == .common && selfClosingTagsB tag then
      let s1 := if charAtL ctx.source s.index == some '/' then updIndexP 1 s else s
      match expectP ctx ['>'] none none s1 with
      | .error e => .error e
      | .ok ((), s2) => .ok (([], attributes), s2)
    else if charAtL ctx.source s.index == some '/' then
      match expectP ctx ['>'] none none (updIndexP 1 s) with
      | .error e => .error e
      | .ok ((), s2) => .ok (([], attributes), s2)
    else
      match expectP ctx ['>'] none none s with
      | .error e => .error e
      | .ok ((), s1) =>
        if textTagsB tag then
          let attrLoc := getLocP s1
          match p.parseJSXChildrenValue ctx tag kind hasVRaw true loc s1 with
          | .error e => .error e
          | .ok (children, s2) =>
            let attrs' :=
              if children.length != 0 then
                attributes ++
                  [ASTNode.jsxAttribute
                    (if tag = "textarea".data then "value".data else "innerHTML".data)
                    (ASTNode.jsxStrings children attrLoc) loc]
              else attributes
            .ok (([], attrs'), s2)
        else
          match p.parseJSXChildrenValue ctx tag kind hasVRaw false loc s1 with
          | .error e => .error e
          | .ok (children, s2) => .ok ((children, attributes), s2)
  /- `parseJSXChildrenValue` (parser.ts 461-519): raw-text children
  under `v-raw`, otherwise the chain-splicing child loop, then the
  closing tag. -/
  parseJSXChildrenValue := fun ctx tag kind hasVRaw isTextTag loc s =>
    let endTag :=
      (match kind with
       | .block => "</b:".data
       | .vdt => "</t:".data
       | _ => "</".data) ++ tag ++ ['>']
    if hasVRaw then
      match p.vRawChildrenLoop ctx endTag [] s with
      | .error e => .error e
      | .ok (children, s1) =>
        match p.parseJSXClosingTag ctx endTag loc s1 with
        | .error e => .error e
        | .ok ((), s2) => .ok (children, s2)
    else
      match p.skipWSBetweenTags ctx endTag true s with
      | .error e => .error e
      | .ok ((), s1) =>
        match p.childrenLoop ctx endTag isTextTag ⟨[], none⟩ s1 with
        | .error e => .error e
        | .ok (st, s2) =>
          match p.parseJSXClosingTag ctx endTag loc s2 with
          | .error e => .error e
          | .ok ((), s3) => .ok (st.children, s3)
  /- The `v-raw` child loop of `parseJSXChildrenValue`. -/
  vRawChildrenLoop := fun ctx endTag acc s =>
    if s.index < ctx.source.length then
      if isExpectL ctx.source endTag s.index then .ok (acc, s)
      else
        match p.scanJSXText ctx [.lit endTag] s with
        | .error e => .error e
        | .ok (t, s1) => p.vRawChildrenLoop ctx endTag (acc ++ [t]) s1
    else .ok (acc, s)
  /- The chain-splicing child loop of `parseJSXChildrenValue`
  (parser.ts 487-514): parse one child, then apply `spliceStep`. -/
  childrenLoop := fun ctx endTag isTextTag st s =>
    if s.index < ctx.source.length then
      if isExpectL ctx.source endTag s.index then .ok (st, s)
      else
        match p.parseJSXChild ctx endTag isTextTag s with
        | .error e => .error e
        | .ok (child, s1) =>
          match spliceStep (devGuard ctx.env) st child with
          | .error e => .error e
          | .ok st' => p.childrenLoop ctx endTag isTextTag st' s1
    else .ok (st, s)
  /- `parseJSXChild` (parser.ts 521-540). -/
  parseJSXChild := fun ctx endTag isTextTag s =>
    if isExpectL ctx.source ctx.d0 s.index then
      match p.parseJSXExpression ctx s with
      | .error e => .error e
      | .ok (child, s1) =>
        match p.skipWSBetweenTags ctx endTag false s1 with
        | .error e => .error e
        | .ok ((), s2) => .ok (child, s2)
    else if isTextTag then
      p.scanJSXText ctx [.lit endTag, .lit ctx.d0] s
    else if isTagStartL ctx.source s.index then
      match p.scanJSX ctx s with
      | .error e => .error e
      | .ok (child, s1) =>
        match p.skipWSBetweenTags ctx endTag true s1 with
        | .error e => .error e
        | .ok ((), s2) => .ok (child, s2)
    else
      p.scanJSXText ctx [.endOrTag endTag, .lit ctx.d0] s
  /- `parseJSXClosingTag` (parser.ts 542-554). -/
  parseJSXClosingTag := fun ctx endTag loc s =>
    match expectP ctx "</".data (some ("Unclosed tag: ".data ++ endTag)) (some loc) s with
    | .error e => .error e
    | .ok ((), s1) =>
      match p.identLoop ctx s1 with
      | .error e => .error e
      | .ok ((), s2) =>
        match p.skipWhitespace ctx s2 with
        | .error e => .error e
        | .ok ((), s3) => expectP ctx ['>'] none none s3
  /- `scanJSXText` (parser.ts 556-585). -/
  scanJSXText := fun ctx stops s =>
    let start := s.index
    let loc := getLocP s
    match p.jsxTextLoop ctx stops s with
    | .error e => .error e
    | .ok ((), s1) => .ok (.jsxText (getValueL ctx.source start s1.index) loc, s1)
  /- The while loop of `scanJSXText`: whitespace never triggers a stop
  condition; at a non-whitespace character the conditions are checked in
  order. -/
  jsxTextLoop := fun ctx stops s =>
    if s.index < ctx.source.length then
      match charCodeAtL ctx.source s.index with
      | some code =>
        if isWhiteSpaceN code then
          let s1 := if code == 10 then updLineP s else s
          p.jsxTextLoop ctx stops (updIndexP 1 s1)
        else if stops.any (fun sc => evalStop ctx sc s.index) then .ok ((), s)
        else p.jsxTextLoop ctx stops (updIndexP 1 s)
      | none => .ok ((), s)
    else .ok ((), s)
  /- `parseJSXExpression` up to but not including the final
  `expect(delimiters[1], 'Unclosed delimiter', loc)` (parser.ts
  587-611): returns the unescape flag, the inner value and the location
  captured at the opening delimiter. -/
  parseJSXExpressionInner := fun ctx s =>
    let loc := getLocP s
    match expectP ctx ctx.d0 none none s with
    | .error e => .error e
    | .ok ((), s1) =>
      match p.skipWSAndComment ctx s1 with
      | .error e => .error e
      | .ok ((), s2) =>
        let spaceColumn := getFirstSpaceColumn ctx.source s2.index s2.column
        match (if isExpectL ctx.source ['='] s2.index then
                 match expectP ctx ['='] none none s2 with
                 | .error e => .error e
                 | .ok ((), s3) =>
                   match p.skipWhitespace ctx s3 with
                   | .error e => .error e
                   | .ok ((), s4) => (.ok (true, s4) : PRes Bool)
               else (.ok (false, s2) : PRes Bool)) with
        | .error e => .error e
        | .ok (isUnescape, s5) =>
          match (if isExpectL ctx.source ctx.d1 s5.index then
                   (.ok ([], s5) : PRes (List ASTNode))
                 else p.parse ctx false spaceColumn s5) with
          | .error e => .error e
          | .ok (value, s6) => .ok ((isUnescape, value, loc), s6)
  /- `parseJSXExpression` (parser.ts 587-615): the inner part followed
  by the final delimiter expectation, whose error carries the opening
  delimiter's location. -/
  parseJSXExpression := fun ctx s =>
    match p.parseJSXExpressionInner ctx s with
    | .error e => .error e
    | .ok ((isUnescape, value, loc), s1) =>
      match expectP ctx ctx.d1 (some "Unclosed delimiter".data) (some loc) s1 with
      | .error e => .error e
      | .ok ((), s2) =>
        .ok ((if isUnescape then .jsxUnescapeTextNode value loc else .jsxExpressionNode value loc), s2)
  /- `skipWhitespace` (parser.ts 771-782). -/
  skipWhitespace := fun ctx s =>
    if s.index < ctx.source.length then
      match charCodeAtL ctx.source s.index with
      | some code =>
        if isWhiteSpaceN code then
          let s1 := if code == 10 then updLineP s else s
          p.skipWhitespace ctx (updIndexP 1 s1)
        else .ok ((), s)
      | none => .ok ((), s)
    else .ok ((), s)
  /- `skipJSComment` (parser.ts 667-697): a do-while consuming
  consecutive line and block comments. -/
  skipJSComment := fun ctx s =>
    if charAtL ctx.source s.index == some '/' then
      if charAtL ctx.source (s.index + 1) == some '/' then
        match p.lineCommentLoop ctx (updIndexP 2 s) with
        | .error e => .error e
        | .ok ((), s1) => p.skipJSComment ctx s1
      else if charAtL ctx.source (s.index + 1) == some '*' then
        match p.blockCommentLoop ctx (updIndexP 2 s) with
        | .error e => .error e
        | .ok ((), s1) => p.skipJSComment ctx s1
      else .ok ((), s)
    else .ok ((), s)
  /- The line-comment scan of `skipJSComment`. -/
  lineCommentLoop := fun ctx s =>
    if s.index < ctx.source.length then
      match charCodeAtL ctx.source s.index with
      | some 10 => .ok ((), s)
      | _ => p.lineCommentLoop ctx (updIndexP 1 s)
    else .ok ((), s)
  /- The block-comment scan of `skipJSComment`. -/
  blockCommentLoop := fun ctx s =>
    if s.index < ctx.source.length then
      if isExpectL ctx.source ['*', '/'] s.index then .ok ((), updIndexP 2 s)
      else
        let s1 := if charCodeAtL ctx.source s.index == some 10 then updLineP s else s
        p.blockCommentLoop ctx (updIndexP 1 s1)
    else .ok ((), s)
  /- `skipWhitespaceAndJSComment` (parser.ts 658-665). -/
  skipWSAndComment := fun ctx s =>
    match p.skipWhitespace ctx s with
    | .error e => .error e
    | .ok ((), s1) =>
      match p.skipJSComment ctx s1 with
      | .error e => .error e
      | .ok ((), s2) =>
        if s2.index == s.index then .ok ((), s2) else p.skipWSAndComment ctx s2
  /- `skipWhitespaceBetweenTags` (parser.ts 784-804): look ahead over
  whitespace; only when the first non-whitespace position starts the end
  tag, a tag, or (optionally) the opening delimiter is the whitespace
  actually consumed. -/
  skipWSBetweenTags := fun ctx endTag skipBeforeDelimiter s =>
    match firstNonWsIndex ctx.source (ctx.source.length + 1) s.index with
    | some pos =>
      if isExpectL ctx.source endTag pos || isTagStartL ctx.source pos ||
         (skipBeforeDelimiter && isExpectL ctx.source ctx.d0 pos) then
        p.skipWhitespace ctx s
      else .ok ((), s)
    | none => .ok ((), s)

/-- The parser method family at a given fuel: plain structural recursion
on the fuel, so every run is kernel-reducible. -/
def pFuns : Nat → PFuns
  | 0 => pFail
  | n + 1 => pStep (pFuns n)

/-- Embeds `parse(isRoot, spaces)` at a given fuel. -/
def parseP (fuel : Nat) (ctx : Ctx) (isRoot : Bool) (spaces : Nat) (s : PS) :
    PRes (List ASTNode) :=
  (pFuns fuel).parse ctx isRoot spaces s

/-- The while loop of `parseJSXAttribute` at a given fuel. -/
def parseJSXAttrLoopP (fuel : Nat) (ctx : Ctx) (tag : List Char) (kind : ElemKind)
    (acc : AttrRes) (s : PS) : PRes AttrRes :=
  (pFuns fuel).parseJSXAttrLoop ctx tag kind acc s

/-- Embeds `parseJSXAttribute` at a given fuel. -/
def parseJSXAttributeP (fuel : Nat) (ctx : Ctx) (tag : List Char) (kind : ElemKind)
    (s : PS) : PRes AttrRes :=
  (pFuns fuel).parseJSXAttribute ctx tag kind s

/-- Embeds `parseJSXExpression` without its final delimiter expectation, at a
given fuel. -/
def parseJSXExpressionInnerP (fuel : Nat) (ctx : Ctx) (s : PS) :
    PRes (Bool × List ASTNode × Loc) :=
  (pFuns fuel).parseJSXExpressionInner ctx s

/-- Embeds `parseJSXExpression` at a given fuel. -/
def parseJSXExpressionP (fuel : Nat) (ctx : Ctx) (s : PS) : PRes ASTNode :=
  (pFuns fuel).parseJSXExpression ctx s

/-- The chain-splicing child loop at a given fuel. -/
def childrenLoopP (fuel : Nat) (ctx : Ctx) (endTag : List Char) (isTextTag : Bool)
    (st : SpliceSt) (s : PS) : PRes SpliceSt :=
  (pFuns fuel).childrenLoop ctx endTag isTextTag st s

/-- Embeds `parseJSXChildrenValue` at a given fuel. -/
def parseJSXChildrenValueP (fuel : Nat) (ctx : Ctx) (tag : List Char) (kind : ElemKind)
    (hasVRaw isTextTag : Bool) (loc : Loc) (s : PS) : PRes (List ASTNode) :=
  (pFuns fuel).parseJSXChildrenValue ctx tag kind hasVRaw isTextTag loc s

/-- The initial scanner state of the Parser constructor: index 0,
line 1, column 1. -/
def initPS : PS := ⟨0, 1, 1⟩

/-- Build the run context the Parser constructor sets up: right-trimmed
source plus options. -/
def mkCtx (src d0 d1 env : List Char) : Ctx := ⟨trimRightL src, d0, d1, env⟩

/-- Embeds `new Parser(source, options).ast`: the root parse of the trimmed
source, fuel-indexed. -/
def parseProgram (fuel : Nat) (src d0 d1 env : List Char) : PRes (List ASTNode) :=
  parseP fuel (mkCtx src d0 d1 env) true 0 initPS

/-! The misstime reconciler model.  Type flags are the bit values of
misstime `utils/types.ts` (in the source sample). -/

/-- Flag `Types.Text`. -/
def tText : Nat := 1
/-- Flag `Types.CommonElement`. -/
def tCommonElement : Nat := 2
/-- Flag `Types.ComponentClass`. -/
def tComponentClass : Nat := 4
/-- Flag `Types.ComponentFunction`. -/
def tComponentFunction : Nat := 8
/-- Flag `Types.HtmlComment`. -/
def tHtmlComment : Nat := 16
/-- Flag `Types.InputElement`. -/
def tInputElement : Nat := 32
/-- Flag `Types.SelectElement`. -/
def tSelectElement : Nat := 64
/-- Flag `Types.TextareaElement`. -/
def tTextareaElement : Nat := 128
/-- Flag `Types.SvgElement`. -/
def tSvgElement : Nat := 256
/-- Flag `Types.UnescapeText`. -/
def tUnescapeText : Nat := 512
/-- Flag `Types.Void`. -/
def tVoid : Nat := 1024
/-- Flag `Types.Fragment`. -/
def tFragment : Nat := 2048
/-- Flag `Types.Component = ComponentClass | ComponentFunction`. -/
def tComponent : Nat := tComponentClass ||| tComponentFunction
/-- Flag `Types.FormElement`. -/
def tFormElement : Nat := tInputElement ||| tSelectElement ||| tTextareaElement
/-- Flag `Types.Element = CommonElement | FormElement | SvgElement`. -/
def tElement : Nat := tCommonElement ||| tFormElement ||| tSvgElement

/-- Flag `ChildrenTypes.HasInvalidChildren`. -/
def ctHasInvalidChildren : Nat := 1
/-- Flag `ChildrenTypes.HasVNodeChildren`. -/
def ctHasVNodeChildren : Nat := 2
/-- Flag `ChildrenTypes.HasNonKeyedChildren`. -/
def ctHasNonKeyedChildren : Nat := 4
/-- Flag `ChildrenTypes.HasKeyedChildren`. -/
def ctHasKeyedChildren : Nat := 8
/-- Flag `ChildrenTypes.HasTextChildren`. -/
def ctHasTextChildren : Nat := 16
/-- Flag `ChildrenTypes.MultipleChildren = HasNonKeyedChildren | HasKeyedChildren`. -/
def ctMultipleChildren : Nat := ctHasNonKeyedChildren ||| ctHasKeyedChildren

mutual
/-- The VNode record of misstime `utils/types.ts`: the bit-flag `type`,
the resolved DOM handle (a numeric id here, `none` until mounted), the
prop bag, the children-shape flag and the children payload, and the
ref (a numeric id, `none` when absent).  Prop values are opaque and
modelled as `Nat`. -/
inductive VNode where
  | mk (ty : Nat) (dom : Option Nat) (props : Option (List (List Char × Nat)))
      (childrenType : Nat) (children : VChildren) (ref : Option Nat)

/-- The shape-dependent `children` payload of a VNode: nothing, a single
VNode, an array, text, or (for a mounted class-component VNode) the
component instance. -/
inductive VChildren where
  | nil
  | single (v : VNode)
  | multiple (vs : List VNode)
  | textContent (s : List Char)
  | comp (c : CompRec)

/-- The Component instance state of `components/component.ts` that the
embedded methods read and write: the prop store, the lifecycle flags,
the rendered subtree `$lastInput` (`none` until the first render), and
whether the user subclass defines the `beforeUnmount`/`unmounted`
hooks. -/
inductive CompRec where
  | mk (props : List (List Char × Nat)) (inited rendered mounted unmounted : Bool)
      (lastInput : Option VNode) (hasBeforeUnmount hasUnmounted : Bool)
end

/-- Accessor `vNode.type`. -/
def VNode.ty : VNode → Nat
  | .mk t _ _ _ _ _ => t

/-- Accessor `vNode.dom`. -/
def VNode.domOf : VNode → Option Nat
  | .mk _ d _ _ _ _ => d

/-- Accessor `vNode.childrenType`. -/
def VNode.childrenTypeOf : VNode → Nat
  | .mk _ _ _ ct _ _ => ct

/-- Accessor `vNode.children`. -/
def VNode.childrenOf : VNode → VChildren
  | .mk _ _ _ _ ch _ => ch

/-- JavaScript truthiness of the `children` field as tested by
`unmount`'s `else if (children)`. -/
def VChildren.truthy : VChildren → Bool
  | .nil => false
  | .textContent s => s ≠ []
  | _ => true

/-- Accessor `component.props`. -/
def CompRec.propsF : CompRec → List (List Char × Nat)
  | .mk p _ _ _ _ _ _ _ => p

/-- Accessor `component.$unmounted`. -/
def CompRec.unmountedF : CompRec → Bool
  | .mk _ _ _ _ u _ _ _ => u

/-- Accessor `component.$lastInput`. -/
def CompRec.lastInputF : CompRec → Option VNode
  | .mk _ _ _ _ _ li _ _ => li

/-- Whether the subclass defines `beforeUnmount`. -/
def CompRec.hasBeforeUnmountF : CompRec → Bool
  | .mk _ _ _ _ _ _ b _ => b

/-- Whether the subclass defines `unmounted`. -/
def CompRec.hasUnmountedF : CompRec → Bool
  | .mk _ _ _ _ _ _ _ u => u

/-- Functional update of `$unmounted`. -/
def CompRec.withUnmounted : CompRec → Bool → CompRec
  | .mk p i r m _ li b u, un => .mk p i r m un li b u

/-- Functional update of the prop store. -/
def CompRec.withProps : CompRec → List (List Char × Nat) → CompRec
  | .mk _ i r m un li b u, p => .mk p i r m un li b u

/-- The observable actions of the embedded reconciler and component
runtime.  DOM-detaching actions (`removeVNodeDomE`, `clearDomE`) are
kept distinct from delegation-table, ref and lifecycle actions. -/
inductive REffect where
  | unmountRef (r : Option Nat)
  | unmountDelegatedEvent (name : List Char) (dom : Option Nat)
  | hookBeforeUnmount
  | hookUnmounted
  | offAll
  | crash
  | removeVNodeDomE (dom : Option Nat) (parent : Nat)
  | clearDomE (parent : Nat)
  | renderPatch
  | callbackInvoked
  | changeEvent (k : List Char)
  | receiveEventsFired
  | initedSet
  | logError
deriving DecidableEq, Repr

/-- The delegated props of one VNode paired with its DOM handle: the
pairs `(prop, vNode.dom)` for props in the delegated-event table `D`
(the table itself is the external collaborator of spec §6, so its key
set is a parameter). -/
def delegatedPairs (D : List (List Char)) (props : Option (List (List Char × Nat)))
    (dom : Option Nat) : List (List Char × Option Nat) :=
  match props with
  | none => []
  | some ps => (ps.filter (fun p => D.contains p.1)).map (fun p => (p.1, dom))

/-- The `unmountDelegatedEvent` calls of the prop loop of `unmount`
(unmount.ts 24-30). -/
def delegatedUnmountEffects (D : List (List Char)) (props : Option (List (List Char × Nat)))
    (dom : Option Nat) : List REffect :=
  (delegatedPairs D props dom).map (fun pd => REffect.unmountDelegatedEvent pd.1 pd.2)

/-- Embeds `unmount(vNode)` (unmount.ts 12-44) as the list of actions it
performs, fuel-indexed (the recursion is structural in the tree; the
fuel only bounds the depth).  An element releases its ref, unregisters
its delegated events and recurses into its children according to
`childrenType`; a truthy-children class-component VNode runs the
component's `$unmount` (component.ts 167-179: `beforeUnmount` hook,
unmount of `$lastInput`, `off()`, `unmounted` hook) and then releases
the ref; nothing else happens — in particular no DOM detach.  `crash`
marks a JavaScript TypeError path (e.g. `$lastInput` still null). -/
def unmountEffectsF : Nat → List (List Char) → VNode → List REffect
  | 0, _, _ => []
  | n + 1, D, .mk ty dom props ct ch ref =>
    if ty &&& tElement != 0 then
      [.unmountRef ref] ++ delegatedUnmountEffects D props dom ++
      (if ct &&& ctMultipleChildren != 0 then
         match ch with
         | .multiple vs => (vs.map (unmountEffectsF n D)).flatten
         | _ => []
       else if ct == ctHasVNodeChildren then
         match ch with
         | .single v => unmountEffectsF n D v
         | _ => [.crash]
       else [])
    else if ch.truthy then
      if ty &&& tComponentClass != 0 then
        match ch with
        | .comp c =>
          ((if c.hasBeforeUnmountF then [REffect.hookBeforeUnmount] else []) ++
           (match c.lastInputF with
            | some li => unmountEffectsF n D li
            | none => [REffect.crash]) ++
           [REffect.offAll] ++
           (if c.hasUnmountedF then [REffect.hookUnmounted] else [])) ++
          [.unmountRef ref]
        | _ => [.crash]
      else []
    else []

/-- Embeds `unmountAllChildren` (unmount.ts 46-50). -/
def unmountAllEffectsF (n : Nat) (D : List (List Char)) (vs : List VNode) : List REffect :=
  (vs.map (unmountEffectsF n D)).flatten

/-- Embeds `Component.$unmount` (component.ts 167-179) as a state transformer:
the hooks and subtree unmount as effects, plus the `$unmounted := true`
write. -/
def dollarUnmount (n : Nat) (D : List (List Char)) (c : CompRec) : CompRec × List REffect :=
  (c.withUnmounted true,
   (if c.hasBeforeUnmountF then [REffect.hookBeforeUnmount] else []) ++
   (match c.lastInputF with
    | some li => unmountEffectsF n D li
    | none => [REffect.crash]) ++
   [REffect.offAll] ++
   (if c.hasUnmountedF then [REffect.hookUnmounted] else []))

/-- Embeds `remove(vNode, parentDom)` (unmount.ts 7-10): `unmount` then
`removeVNodeDom` — the only place a plain removal detaches DOM. -/
def removeEffectsF (n : Nat) (D : List (List Char)) (v : VNode) (parentDom : Nat) : List REffect :=
  unmountEffectsF n D v ++ [.removeVNodeDomE v.domOf parentDom]

/-- Embeds `removeAllChildren(children, dom, vNode)` (unmount.ts 56-64):
`unmountAllChildren`, then either `removeVNodeDom` (fragment) or
`clearDom`. -/
def removeAllChildrenEffectsF (n : Nat) (D : List (List Char)) (children : List VNode)
    (dom : Nat) (v : VNode) : List REffect :=
  unmountAllEffectsF n D children ++
  (if v.ty &&& tFragment != 0 then [.removeVNodeDomE v.domOf dom] else [.clearDomE dom])

/-- Whether an action detaches DOM from the document (`removeVNodeDom`
of `utils/common`, or `clearDom` of unmount.ts 52-54). -/
def isDomDetach : REffect → Bool
  | .removeVNodeDomE _ _ => true
  | .clearDomE _ => true
  | _ => false

/-- The delegated events present on the element VNodes of a whole
mounted tree, counted as the claim and the spec's mount/unmount-symmetry
property count them (independently of `unmount`'s own traversal): every
element VNode contributes its delegated props paired with its DOM node,
and the walk descends through the children payload of every node —
fragments included — and through the rendered `$lastInput` of every
component instance.  Mount registers a delegated event for each such
prop when it materializes the element, so on a mounted tree this is the
registered-event set. -/
def treeDelegatedF : Nat → List (List Char) → VNode → List (List Char × Option Nat)
  | 0, _, _ => []
  | n + 1, D, .mk ty dom props _ ch _ =>
    (if ty &&& tElement != 0 then delegatedPairs D props dom else []) ++
    (match ch with
     | .single v => treeDelegatedF n D v
     | .multiple vs => (vs.map (treeDelegatedF n D)).flatten
     | .comp c =>
       match c.lastInputF with
       | some li => treeDelegatedF n D li
       | none => []
     | _ => [])

/-- Well-formedness of a mounted VNode tree: children-shape flags agree
with the children payload (`MultipleChildren` iff an array,
`HasVNodeChildren` iff a single VNode), class-component VNodes hold a
component instance with a rendered `$lastInput`, and the conditions hold
recursively. -/
def wfVNodeF : Nat → VNode → Bool
  | 0, _ => false
  | n + 1, .mk ty _ _ ct ch _ =>
    if ty &&& tElement != 0 then
      match ch with
      | .multiple vs => (ct &&& ctMultipleChildren != 0) && vs.all (wfVNodeF n)
      | .single v => (ct &&& ctMultipleChildren == 0) && (ct == ctHasVNodeChildren) && wfVNodeF n v
      | .nil => (ct &&& ctMultipleChildren == 0) && (ct != ctHasVNodeChildren)
      | .textContent _ => (ct &&& ctMultipleChildren == 0) && (ct != ctHasVNodeChildren)
      | .comp _ => false
    else if ty &&& tComponentClass != 0 then
      match ch with
      | .comp c =>
        match c.lastInputF with
        | some li => wfVNodeF n li
        | none => false
      | _ => false
    else true

/-! The component prop store and the `set` / `forceUpdate` /
initialization models. -/

/-- Modelled from the spec: `set` of intact-shared (not in the source
sample) writes one key's value into the prop store; path syntax is not
modelled. -/
def storeSet : List (List Char × Nat) → List Char → Nat → List (List Char × Nat)
  | [], k, v => [(k, v)]
  | (k0, v0) :: rest, k, v =>
    if k0 = k then (k, v) :: rest else (k0, v0) :: storeSet rest k v

/-- Modelled from the spec: `get` of intact-shared reads one key. -/
def storeGet : List (List Char × Nat) → List Char → Option Nat
  | [], _ => none
  | (k0, v0) :: rest, k => if k0 = k then some v0 else storeGet rest k

/-- The options record of `Component.set`. -/
structure SetOpts where
  silent : Bool

/-- Modelled from the spec: `setProps` of misstime `utils/component`
(not in the source sample): merge the pairs into the prop store, then
synchronously fire a change notification per key and run one
render→patch cycle. -/
def setPropsModel (c : CompRec) (kvs : List (List Char × Nat)) : CompRec × List REffect :=
  (c.withProps (kvs.foldl (fun st p => storeSet st p.1 p.2) c.propsF),
   kvs.map (fun p => REffect.changeEvent p.1) ++ [REffect.renderPatch])

/-- Embeds `Component.set(key, value, options)` (component.ts 94-109) in its
single-key form: with `{silent: true}` only the store is written and the
method returns; otherwise `setProps` runs. -/
def setMethod (c : CompRec) (k : List Char) (v : Nat) (opts : Option SetOpts) :
    CompRec × List REffect :=
  match opts with
  | some o =>
    if o.silent then (c.withProps (storeSet c.propsF k v), []) else setPropsModel c [(k, v)]
  | none => setPropsModel c [(k, v)]

/-- Modelled from the spec: `forceUpdate` of misstime `utils/component`
(not in the source sample): re-render and patch, then invoke the
callback when given. -/
def forceUpdateModel (c : CompRec) (hasCallback : Bool) : CompRec × List REffect :=
  (c, [REffect.renderPatch] ++ (if hasCallback then [REffect.callbackInvoked] else []))

/-- Embeds `Component.forceUpdate(callback)` (component.ts 120-123): a strict
no-op on an unmounted component. -/
def forceUpdateMethod (c : CompRec) (hasCallback : Bool) : CompRec × List REffect :=
  if c.unmountedF then (c, []) else forceUpdateModel c hasCallback

/-- How a component's `init` result settles. -/
inductive SettleOutcome where
  | fulfilled
  | rejected
deriving DecidableEq, Repr

/-- The shape of the `init` return value as tested by the constructor
(`ret && ret.then`). -/
inductive InitRet where
  | absent
  | plain
  | thenable (outcome : SettleOutcome)

/-- Modelled from the spec: `componentInited` of misstime
`utils/component` (not in the source sample): fire the queued
receive-event notifications, then mark the component inited. -/
def componentInitedEffects (trigger : Bool) : List REffect :=
  (if trigger then [REffect.receiveEventsFired] else []) ++ [REffect.initedSet]

/-- The synchronous tail of the constructor (component.ts 72-85): a
thenable `init` result defers `componentInited` to the settle handlers
and returns; otherwise `componentInited` runs inline.  The Bool records
whether initialization was deferred. -/
def constructorInitEffects (init : InitRet) (trigger : Bool) : List REffect × Bool :=
  match init with
  | .absent => (componentInitedEffects trigger, false)
  | .plain => (componentInitedEffects trigger, false)
  | .thenable _ => ([], true)

/-- The settle handlers the constructor attaches to a thenable `init`
result (component.ts 75-80): on fulfilment run `componentInited`; on
rejection log the error (in development builds only) and then run
`componentInited` identically — the rejection is consumed by the
attached handler, never rethrown. -/
def initSettleEffects (env : List Char) (outcome : SettleOutcome) (trigger : Bool) :
    List REffect :=
  match outcome with
  | .fulfilled => componentInitedEffects trigger
  | .rejected =>
    (if devGuard env then [REffect.logError] else []) ++ componentInitedEffects trigger

/-! Concrete instances used by the witnesses, plus small result
extractors. -/

/-- An attribute node is named `key`. -/
def isKeyAttr : ASTNode → Bool
  | .jsxAttribute name _ _ => name == keyAttrName
  | _ => false

/-- A fixed location for hand-built nodes. -/
def locA : Loc := ⟨1, 1⟩

/-- A hand-built `<div v-if={}>A</div>` element (chain head). -/
def divIfNode : ASTNode :=
  .element .common "div".data []
    [(dIf, .jsxDirectiveIf dIf (.jsxExpressionNode [] locA) none locA)]
    [.jsxText "A".data locA] false locA

/-- A hand-built directive-free `<span/>` element. -/
def spanNode : ASTNode :=
  .element .common "span".data [] [] [] false locA

/-- A hand-built `<div v-else>B</div>` element. -/
def divElseNode : ASTNode :=
  .element .common "div".data []
    [(dElse, .jsxDirectiveIf dElse (.jsxNone locA) none locA)]
    [.jsxText "B".data locA] false locA

/-- A hand-built `<div v-else-if={}>C</div>` element. -/
def divElseIfNode : ASTNode :=
  .element .common "div".data []
    [(dElseIf, .jsxDirectiveIf dElseIf (.jsxExpressionNode [] locA) none locA)]
    [.jsxText "C".data locA] false locA

/-- The context for the unclosed-delimiter witness: source `{a` with
delimiters `{`/`}`. -/
def ctx8 : Ctx := mkCtx ['{', 'a'] ['{'] ['}'] "development".data

/-- The failing production input of the validation-guard claim:
`<b:foo a="1"></b:foo>`. -/
def srcC3 : List Char :=
  "<b:foo a=".data ++ [dquote] ++ "1".data ++ [dquote] ++ "></b:foo>".data

/-- The context for the keyed-flag witness: attribute soup
` key="1">`. -/
def ctx9 : Ctx := mkCtx (" key=".data ++ [dquote] ++ "1".data ++ [dquote] ++ ">".data)
  ['{'] ['}'] "development".data

/-- Project the attribute record out of a parse result. -/
def attrResultOf (x : PRes AttrRes) : AttrRes :=
  match x with
  | .ok (r, _) => r
  | .error _ => ⟨[], [], false, false⟩

/-- Project the final state out of a parse result. -/
def stateOf {α : Type} (x : PRes α) : PS :=
  match x with
  | .ok (_, s) => s
  | .error _ => initPS

/-- The attribute record of the keyed-flag witness run. -/
def rw9 : AttrRes := attrResultOf (parseJSXAttributeP 50 ctx9 "div".data .common initPS)

/-- The final state of the keyed-flag witness run. -/
def sw9 : PS := stateOf (parseJSXAttributeP 50 ctx9 "div".data .common initPS)

/-- The delegated event name used by the unmount witnesses. -/
def evClick : List Char := "ev-click".data

/-- A one-entry delegated-event table for the witnesses. -/
def delegTable0 : List (List Char) := [evClick]

/-- A leaf element VNode carrying the delegated `ev-click` prop, DOM
id 7. -/
def leaf7 : VNode :=
  .mk tCommonElement (some 7) (some [(evClick, 1)]) ctHasInvalidChildren .nil none

/-- A mounted Fragment VNode wrapping `leaf7` as its only array child. -/
def fragV : VNode :=
  .mk tFragment (some 9) none ctHasNonKeyedChildren (.multiple [leaf7]) none

/-- A root element VNode holding the fragment `fragV` as its only array
child. -/
def rootFrag : VNode :=
  .mk tCommonElement (some 1) none ctHasNonKeyedChildren (.multiple [fragV]) none

/-- Demonstration source 1: the spec's first concrete scenario. -/
def srcDemo1 : List Char := "<div>hello</div>".data

/-- Demonstration source 2: the spec's second concrete scenario wrapped
in a parent element (an if-chain is spliced inside a child list):
`<span><div v-if={a}>A</div><div v-else>B</div></span>`. -/
def srcDemo2 : List Char :=
  "<span><div v-if=".data ++ ['{'] ++ "a".data ++ ['}'] ++
  ">A</div><div v-else>B</div></span>".data

/-- The parsed (and spliced-out) `v-else` element of demonstration 2. -/
def demo2Else : ASTNode :=
  .element .common "div".data []
    [(dElse, .jsxDirectiveIf dElse (.jsxNone ⟨1, 39⟩) none ⟨1, 33⟩)]
    [.jsxText "B".data ⟨1, 40⟩] false ⟨1, 29⟩

/-- The parsed chain-head `v-if` element of demonstration 2, with the
`v-else` element linked through the `v-if` directive's `next`. -/
def demo2If : ASTNode :=
  .element .common "div".data []
    [(dIf, .jsxDirectiveIf dIf
      (.jsxExpressionNode [.js [['a']] 0 ⟨1, 18⟩] ⟨1, 17⟩) (some demo2Else) ⟨1, 12⟩)]
    [.jsxText "A".data ⟨1, 21⟩] false ⟨1, 8⟩

/-! Helper lemmas about the directive mapping. -/

theorem dirLookup_dirSet_self (ds : List (List Char × ASTNode)) (k : List Char) (v : ASTNode) :
    dirLookup (dirSet ds k v) k = some v := by
  induction ds with
  | nil => simp [dirSet, dirLookup]
  | cons p rest ih =>
    obtain ⟨k0, v0⟩ := p
    by_cases h : k0 = k
    · simp [dirSet, dirLookup, h]
    · simp [dirSet, dirLookup, h, ih]

theorem dirSet_dirSet (ds : List (List Char × ASTNode)) (k : List Char) (a b : ASTNode) :
    dirSet (dirSet ds k a) k b = dirSet ds k b := by
  induction ds with
  | nil => simp [dirSet]
  | cons p rest ih =>
    obtain ⟨k0, v0⟩ := p
    by_cases h : k0 = k
    · simp [dirSet, h]
    · simp [dirSet, h, ih]

theorem hasElseIfDirNode_elim (t : ASTNode) (h : hasElseIfDirNode t = true) :
    ∃ kind v attrs dirs ch k loc nm val nx dl,
      t = .element kind v attrs dirs ch k loc ∧
      dirLookup dirs dElseIf = some (.jsxDirectiveIf nm val nx dl) := by
  cases t <;> simp [hasElseIfDirNode] at h
  case element kind v attrs dirs ch k loc =>
    cases hd : dirLookup dirs dElseIf with
    | none => rw [hd] at h; simp at h
    | some node =>
      cases node <;> rw [hd] at h <;> try simp at h
      case jsxDirectiveIf nm val nx dl =>
        exact ⟨kind, v, attrs, dirs, ch, k, loc, nm, val, nx, dl, rfl, hd⟩

theorem hasIfDirNode_elim (t : ASTNode) (h : hasIfDirNode t = true) :
    ∃ kind v attrs dirs ch k loc nm val nx dl,
      t = .element kind v attrs dirs ch k loc ∧
      dirLookup dirs dIf = some (.jsxDirectiveIf nm val nx dl) := by
  cases t <;> simp [hasIfDirNode] at h
  case element kind v attrs dirs ch k loc =>
    cases hd : dirLookup dirs dIf with
    | none => rw [hd] at h; simp at h
    | some node =>
      cases node <;> rw [hd] at h <;> try simp at h
      case jsxDirectiveIf nm val nx dl =>
        exact ⟨kind, v, attrs, dirs, ch, k, loc, nm, val, nx, dl, rfl, hd⟩

theorem chainTailAppend_link :
    ∀ (ts : List ASTNode) (t x : ASTNode),
      hasElseIfDirNode t = true →
      (∀ e ∈ ts, hasElseIfDirNode e = true) →
      chainTailAppend ts.length (linkTail1 t ts) x = some (linkTail1 t (ts ++ [x])) := by
  intro ts
  induction ts with
  | nil =>
    intro t x ht _
    obtain ⟨kind, v, attrs, dirs, ch, k, loc, nm, val, nx, dl, rfl, hd⟩ :=
      hasElseIfDirNode_elim t ht
    simp [linkTail1, chainTailAppend, setElseIfNext, hd]
  | cons u us ih =>
    intro t x ht hts
    obtain ⟨kind, v, attrs, dirs, ch, k, loc, nm, val, nx, dl, rfl, hd⟩ :=
      hasElseIfDirNode_elim t ht
    have hu : hasElseIfDirNode u = true := hts u (by simp)
    have hus : ∀ e ∈ us, hasElseIfDirNode e = true := fun e he => hts e (by simp [he])
    have hrec := ih u x hu hus
    simp only [List.length_cons, linkTail1, setElseIfNext, hd, List.cons_append]
    simp only [chainTailAppend, dirLookup_dirSet_self, hrec, Option.map_some]
    simp [dirSet_dirSet]

theorem hasElseDirNode_elim (t : ASTNode) (h : hasElseDirNode t = true) :
    ∃ kind v attrs dirs ch k loc nm val nx dl,
      t = .element kind v attrs dirs ch k loc ∧
      dirLookup dirs dElse = some (.jsxDirectiveIf nm val nx dl) := by
  cases t <;> simp [hasElseDirNode] at h
  case element kind v attrs dirs ch k loc =>
    cases hd : dirLookup dirs dElse with
    | none => rw [hd] at h; simp at h
    | some node =>
      cases node <;> rw [hd] at h <;> try simp at h
      case jsxDirectiveIf nm val nx dl =>
        exact ⟨kind, v, attrs, dirs, ch, k, loc, nm, val, nx, dl, rfl, hd⟩

theorem chainAppend_link (ts : List ASTNode) (h x : ASTNode)
    (hh : hasIfDirNode h = true)
    (hts : ∀ e ∈ ts, hasElseIfDirNode e = true) :
    chainAppend ts.length (linkChain h ts) x = some (linkChain h (ts ++ [x])) := by
  obtain ⟨kind, v, attrs, dirs, ch, k, loc, nm, val, nx, dl, rfl, hd⟩ := hasIfDirNode_elim h hh
  cases ts with
  | nil => simp [linkChain, linkTail1, chainAppend, setIfNext, hd]
  | cons t ts' =>
    have ht : hasElseIfDirNode t = true := hts t (by simp)
    have hts' : ∀ e ∈ ts', hasElseIfDirNode e = true := fun e he => hts e (by simp [he])
    have hrec := chainTailAppend_link ts' t x ht hts'
    simp only [List.length_cons, linkChain, setIfNext, hd, List.cons_append]
    simp only [chainAppend, dirLookup_dirSet_self, hrec, Option.map_some]
    simp [dirSet_dirSet]

theorem isChainMid_parts (e : ASTNode) (h : isChainMid e = true) :
    hasIfEntry e = false ∧ hasElseIfDirNode e = true := by
  simp only [isChainMid, Bool.and_eq_true, Bool.not_eq_true'] at h
  exact h

theorem isChainLastElse_parts (e : ASTNode) (h : isChainLastElse e = true) :
    hasIfEntry e = false ∧ hasElseIfEntry e = false ∧ hasElseDirNode e = true := by
  simp only [isChainLastElse, Bool.and_eq_true, Bool.not_eq_true'] at h
  exact ⟨h.1.1, h.1.2, h.2⟩

theorem hasElseIfDirNode_entry (e : ASTNode) (h : hasElseIfDirNode e = true) :
    hasElseIfEntry e = true := by
  obtain ⟨kind, v, attrs, dirs, ch, k, loc, nm, val, nx, dl, rfl, hd⟩ :=
    hasElseIfDirNode_elim e h
  simp [hasElseIfEntry, hd]

/-- One chain-continuing (`v-else-if`) step of the splice loop from an
open-chain state with the chain head at position 0 of a singleton child
list. -/
theorem spliceStep_mid (dev : Bool) (h : ASTNode) (ts : List ASTNode) (e : ASTNode)
    (hh : hasIfDirNode h = true)
    (hts : ∀ x ∈ ts, hasElseIfDirNode x = true)
    (hm : isChainMid e = true) :
    spliceStep dev ⟨[linkChain h ts], some (0, ts.length)⟩ e =
      .ok ⟨[linkChain h (ts ++ [e])], some (0, ts.length + 1)⟩ := by
  obtain ⟨hEntry, hElseIf⟩ := isChainMid_parts e hm
  obtain ⟨kind, v, attrs, dirs, ch, k, loc, nm, val, nx, dl, rfl, hd⟩ :=
    hasElseIfDirNode_elim e hElseIf
  have hIf : dirLookup dirs dIf = none := by
    simp only [hasIfEntry] at hEntry
    cases hl : dirLookup dirs dIf with
    | none => rfl
    | some _ => rw [hl] at hEntry; simp at hEntry
  have happ := chainAppend_link ts h (.element kind v attrs dirs ch k loc) hh hts
  simp only [spliceStep, hIf, Option.isSome_none, chainDir, hd, Bool.false_eq_true,
    if_false]
  simp [chainSet, happ]

/-- One chain-closing (`v-else`) step of the splice loop. -/
theorem spliceStep_lastElse (dev : Bool) (h : ASTNode) (ts : List ASTNode) (e : ASTNode)
    (hh : hasIfDirNode h = true)
    (hts : ∀ x ∈ ts, hasElseIfDirNode x = true)
    (hm : isChainLastElse e = true) :
    spliceStep dev ⟨[linkChain h ts], some (0, ts.length)⟩ e =
      .ok ⟨[linkChain h (ts ++ [e])], none⟩ := by
  obtain ⟨hEntry, hElseIfEntry, hElse⟩ := isChainLastElse_parts e hm
  obtain ⟨kind, v, attrs, dirs, ch, k, loc, nm, val, nx, dl, rfl, hd⟩ :=
    hasElseDirNode_elim e hElse
  have hIf : dirLookup dirs dIf = none := by
    simp only [hasIfEntry] at hEntry
    cases hl : dirLookup dirs dIf with
    | none => rfl
    | some _ => rw [hl] at hEntry; simp at hEntry
  have hElseIf : dirLookup dirs dElseIf = none := by
    simp only [hasElseIfEntry] at hElseIfEntry
    cases hl : dirLookup dirs dElseIf with
    | none => rfl
    | some _ => rw [hl] at hElseIfEntry; simp at hElseIfEntry
  have happ := chainAppend_link ts h (.element kind v attrs dirs ch k loc) hh hts
  simp only [spliceStep, hIf, Option.isSome_none, chainDir, hd, hElseIf,
    Bool.false_eq_true, if_false]
  simp [chainSet, happ]

/-- The splice loop started on an open chain of `ts` elements extends
that chain through any well-formed chain tail, in document order. -/
theorem spliceLoop_chain :
    ∀ (tail : List ASTNode) (dev : Bool) (h : ASTNode) (ts : List ASTNode),
      hasIfDirNode h = true →
      (∀ e ∈ ts, isChainMid e = true) →
      chainTailOK tail = true →
      List.foldlM (spliceStep dev) (⟨[linkChain h ts], some (0, ts.length)⟩ : SpliceSt) tail =
        .ok ⟨[linkChain h (ts ++ tail)],
             if chainClosed tail then none else some (0, ts.length + tail.length)⟩ := by
  intro tail
  induction tail with
  | nil =>
    intro dev h ts hh hts htail
    simp only [List.foldlM_nil, List.append_nil, chainClosed, List.getLast?_nil]
    rfl
  | cons e rest ih =>
    intro dev h ts hh hts htail
    have htsE : ∀ x ∈ ts, hasElseIfDirNode x = true :=
      fun x hx => (isChainMid_parts x (hts x hx)).2
    cases rest with
    | nil =>
      simp only [chainTailOK] at htail
      rcases Bool.or_eq_true _ _ |>.mp htail with hmid | hlast
      · have hstep := spliceStep_mid dev h ts e hh htsE hmid
        have hclosed : chainClosed [e] = false := by
          obtain ⟨_, hElseIf⟩ := isChainMid_parts e hmid
          have := hasElseIfDirNode_entry e hElseIf
          simp [chainClosed, isChainLastElse, this]
        simp only [List.foldlM_cons, hstep, List.foldlM_nil, hclosed]
        simp
      · have hstep := spliceStep_lastElse dev h ts e hh htsE hlast
        have hclosed : chainClosed [e] = true := by simp [chainClosed, hlast]
        simp only [List.foldlM_cons, hstep, List.foldlM_nil, hclosed]
        simp
    | cons r rs =>
      simp only [chainTailOK, Bool.and_eq_true] at htail
      obtain ⟨hmid, hrest⟩ := htail
      have hstep := spliceStep_mid dev h ts e hh htsE hmid
      have hmids : ∀ x ∈ ts ++ [e], isChainMid x = true := by
        intro x hx
        rcases List.mem_append.mp hx with hx | hx
        · exact hts x hx
        · simp at hx; subst hx; exact hmid
      have hrec := ih dev h (ts ++ [e]) hh hmids hrest
      have hlen : (ts ++ [e]).length = ts.length + 1 := by simp
      rw [hlen] at hrec
      have happ2 : ts ++ [e] ++ (r :: rs) = ts ++ e :: r :: rs := by simp
      rw [happ2] at hrec
      have hclosed : chainClosed (e :: r :: rs) = chainClosed (r :: rs) := by
        simp [chainClosed, List.getLast?_cons_cons]
      have hlen2 : ts.length + 1 + (r :: rs).length = ts.length + (e :: r :: rs).length := by
        simp only [List.length_cons]
        omega
      rw [List.foldlM_cons, hstep]
      show List.foldlM (spliceStep dev)
        (⟨[linkChain h (ts ++ [e])], some (0, ts.length + 1)⟩ : SpliceSt) (r :: rs) = _
      rw [hrec, hclosed, hlen2]

/-- C1: for a child sequence consisting of an element carrying `v-if`
followed by chain-continuing `v-else-if` elements and (optionally) a
closing `v-else` element, the splice loop of `parseJSXChildrenValue`
returns a child list containing only the chain head, with every
`v-else-if`/`v-else` element spliced out and linked in document order
via the `next` pointers: the head's `v-if` node's `next` holds the first
chained element, whose `v-else-if` node's `next` holds the second, and
so on (this is exactly the nesting `linkChain` builds). -/
theorem c1_if_chain_spliced :
    ∀ (dev : Bool) (h : ASTNode) (tail : List ASTNode),
      hasIfDirNode h = true →
      chainTailOK tail = true →
      spliceChildren dev (h :: tail) =
        .ok ⟨[linkChain h tail],
             if chainClosed tail then none else some (0, tail.length)⟩ := by
  intro dev h tail hh htail
  obtain ⟨kind, v, attrs, dirs, ch, k, loc, nm, val, nx, dl, heq, hd⟩ := hasIfDirNode_elim h hh
  have hstep : spliceStep dev ⟨[], none⟩ h = .ok ⟨[h], some (0, 0)⟩ := by
    subst heq
    simp [spliceStep, hd]
  have hloop := spliceLoop_chain tail dev h [] hh (by simp) htail
  simp only [linkChain] at hloop
  simp only [spliceChildren, List.foldlM_cons, hstep]
  simpa using hloop

/-- C1 witness: the spec's concrete scenario — a `v-if` element followed
by a `v-else` element — splices to a single chain-head child whose
`v-if` directive's `next` holds the spliced `v-else` element. -/
theorem c1_if_chain_spliced_witness :
    spliceChildren true [divIfNode, divElseNode] =
      .ok ⟨[linkChain divIfNode [divElseNode]], none⟩ := by
  have h := c1_if_chain_spliced true divIfNode [divElseNode] (by rfl) (by rfl)
  simpa using h

/-- C2 counterexample: the claim demands a parse error whenever a
`v-else` element is not immediately preceded by a `v-if`/`v-else-if`
element.  In `[div v-if, span, div v-else]` the `v-else` element's
immediate element predecessor is the directive-free `span`, yet the
splice loop succeeds (development mode), linking the `v-else` element to
the still-open chain across the intervening `span`. -/
theorem c2_counterexample :
    isElementNodeB spanNode = true ∧
    hasIfEntry spanNode = false ∧ hasElseIfEntry spanNode = false ∧
    spliceChildren true [divIfNode, spanNode, divElseNode] =
      .ok ⟨[setIfNext divIfNode divElseNode, spanNode], none⟩ := by
  refine ⟨rfl, rfl, rfl, ?_⟩
  rfl

/-- C2 amended: an element carrying `v-else-if`/`v-else` raises the
located parse error exactly when it is consumed while no chain is open
(no `v-if`/chained `v-else-if` has been consumed in this child list
since the last chain-closing `v-else`); intervening chain-free elements
do not close an open chain.  In development mode the error is
`throwError` with the offending element's location; in production the
same condition is a TypeError (the null `directiveIf.next` write). -/
theorem c2_amended_chain_error :
    ∀ (dev : Bool) (cs : List ASTNode) (kind : ElemKind) (v : List Char)
      (attrs : List ASTNode) (dirs : List (List Char × ASTNode)) (ch : List ASTNode)
      (k : Bool) (loc : Loc) (tmp : ASTNode),
      dirLookup dirs dIf = none →
      (dirLookup dirs dElseIf = some tmp ∨
        (dirLookup dirs dElseIf = none ∧ dirLookup dirs dElse = some tmp)) →
      spliceStep dev ⟨cs, none⟩ (.element kind v attrs dirs ch k loc) =
        (if dev then .error (.parseError (chainErrMsg (dirNodeName tmp)) loc)
         else .error Err.typeError) := by
  intro dev cs kind v attrs dirs ch k loc tmp hIf hdir
  rcases hdir with hElseIf | ⟨hElseIf, hElse⟩
  · simp [spliceStep, hIf, chainDir, hElseIf]
  · simp [spliceStep, hIf, chainDir, hElseIf, hElse]

/-- C2 amended witness: a lone `v-else` element with no open chain
raises the located chain error in development mode. -/
theorem c2_amended_chain_error_witness :
    spliceStep true ⟨[], none⟩ divElseNode =
      .error (.parseError (chainErrMsg dElse) locA) := by
  have h := c2_amended_chain_error true [] .common "div".data []
    [(dElse, .jsxDirectiveIf dElse (.jsxNone locA) none locA)]
    [.jsxText "B".data locA] false locA
    (.jsxDirectiveIf dElse (.jsxNone locA) none locA)
    (by rfl) (Or.inr ⟨by rfl, by rfl⟩)
  simpa [divElseNode, dirNodeName] using h

/-- C3: the claim says structural validation (validateDirectiveValue /
validateAttributeForBlock) runs only in development mode and raises no
error when `NODE_ENV` is `production`.  The code's guard at
parser.ts 358 misspells the comparison (`'produdction'`), so the guard
is still true for `NODE_ENV === 'production'` and parsing
`<b:foo a="1"></b:foo>` in a production build raises the block-attribute
validation error — contradicting the spec's (and the comparison's
evident) intent. -/
theorem c3_production_validation_runs :
    devGuard358 "production".data = true ∧
    parseProgram 50 srcC3 ['{'] ['}'] "production".data =
      .error (.parseError ("Invalid attribute ".data ++ ['a'] ++ " on block ".data ++ "foo".data)
        ⟨1, 10⟩) := by
  constructor
  · decide
  · rfl

theorem pFuns_attrLoop (m : Nat) : (pFuns m).parseJSXAttrLoop = parseJSXAttrLoopP m := rfl

theorem pFuns_exprInner (m : Nat) :
    (pFuns m).parseJSXExpressionInner = parseJSXExpressionInnerP m := rfl

theorem isExpectL_eof (src es : List Char) (i : Nat) (hlen : src.length ≤ i) (hne : es ≠ []) :
    isExpectL src es i = false := by
  have hdrop : src.drop i = [] := List.drop_eq_nil_of_le hlen
  simp only [isExpectL, hdrop, List.take_nil, decide_eq_false_iff_not]
  exact fun hcontra => hne hcontra.symm

/-- The location an ok result of the expression prelude carries is the
location of the state it was entered at — the opening delimiter's
position, captured before anything is consumed. -/
theorem parseJSXExpressionInnerP_loc (n : Nat) (ctx : Ctx) (s : PS)
    (u : Bool) (v : List ASTNode) (l : Loc) (s2 : PS)
    (hok : parseJSXExpressionInnerP n ctx s = .ok ((u, v, l), s2)) :
    l = ⟨s.line, s.column⟩ := by
  cases n with
  | zero => simp [parseJSXExpressionInnerP, pFuns, pFail] at hok
  | succ m =>
    rw [show parseJSXExpressionInnerP (m + 1) = (pStep (pFuns m)).parseJSXExpressionInner
      from rfl] at hok
    simp only [pStep] at hok
    repeat' split at hok
    all_goals first
      | (simp only [Except.ok.injEq, Prod.mk.injEq, getLocP] at hok
         exact hok.1.2.2.symm)
      | exact absurd hok (by simp)

/-- C8: whenever the inner part of `parseJSXExpression` (everything up
to the final closing-delimiter expectation) succeeds but leaves the
scanner at or beyond the end of input — "the opening delimiter is never
matched before end of input" — `parseJSXExpression` raises the parse
error `Unclosed delimiter` whose location is the opening delimiter's
line/column (the location of the entry state), not the end-of-file
position. -/
theorem c8_unclosed_delimiter_loc (n : Nat) (ctx : Ctx) (s : PS)
    (u : Bool) (v : List ASTNode) (l : Loc) (s2 : PS)
    (hok : parseJSXExpressionInnerP n ctx s = .ok ((u, v, l), s2))
    (heof : ctx.source.length ≤ s2.index)
    (hne : ctx.d1 ≠ []) :
    parseJSXExpressionP (n + 1) ctx s =
      .error (.parseError "Unclosed delimiter".data ⟨s.line, s.column⟩) := by
  have hl := parseJSXExpressionInnerP_loc n ctx s u v l s2 hok
  subst hl
  rw [show parseJSXExpressionP (n + 1) = (pStep (pFuns n)).parseJSXExpression from rfl]
  simp only [pStep, pFuns_exprInner, hok]
  simp [expectP, isExpectL_eof ctx.source ctx.d1 s2.index heof hne]

/-- C8 witness: the source `{a` (delimiters `{`/`}`) ends inside the
expression; the raised error is `Unclosed delimiter` at line 1 column 1,
the opening delimiter's position. -/
theorem c8_unclosed_delimiter_loc_witness :
    parseJSXExpressionP 51 ctx8 initPS =
      .error (.parseError "Unclosed delimiter".data ⟨1, 1⟩) :=
  c8_unclosed_delimiter_loc 50 ctx8 initPS false [ASTNode.js [['a']] 0 ⟨1, 2⟩]
    ⟨1, 1⟩ ⟨2, 1, 3⟩ (by rfl) (by decide) (by decide)

/-- Embeds `parseJSXExpression` only ever returns expression or unescaped-text
nodes — never a named attribute node. -/
theorem parseJSXExpressionP_notKeyAttr (n : Nat) (ctx : Ctx) (s : PS) (node : ASTNode)
    (s' : PS) (h : parseJSXExpressionP n ctx s = .ok (node, s')) :
    isKeyAttr node = false := by
  cases n with
  | zero => simp [parseJSXExpressionP, pFuns, pFail] at h
  | succ m =>
    rw [show parseJSXExpressionP (m + 1) = (pStep (pFuns m)).parseJSXExpression from rfl] at h
    simp only [pStep] at h
    repeat' split at h
    all_goals first
      | (simp only [Except.ok.injEq, Prod.mk.injEq] at h
         obtain ⟨h1, h2⟩ := h
         subst h1
         simp [isKeyAttr])
      | exact absurd h (by simp)

/-- The keyed flag / attribute-list routing of a single named attribute
preserves the loop invariant `keyed = attributes.any isKeyAttr`. -/
theorem attrRoute_keyed_inv (acc : AttrRes) (name : List Char) (value : ASTNode) (loc : Loc)
    (hinv : acc.keyed = acc.attributes.any isKeyAttr) :
    (attrRoute { acc with keyed := acc.keyed || name == keyAttrName } name value loc).keyed =
      (attrRoute { acc with keyed := acc.keyed || name == keyAttrName }
          name value loc).attributes.any isKeyAttr := by
  by_cases hif : name = dIf ∨ name = dElseIf ∨ name = dElse
  · have hk : (name == keyAttrName) = false := by
      rcases hif with h | h | h <;> subst h <;> decide
    simp [attrRoute, hif, hk, hinv]
  · simp only [attrRoute, hif, if_false]
    by_cases hd : directivesMapB name = true
    · have hk : (name == keyAttrName) = false := by
        cases hbeq : name == keyAttrName
        · rfl
        · have heq : name = keyAttrName := by
            exact eq_of_beq hbeq
          rw [heq] at hd
          exact absurd hd (by decide)
      simp [hd, hk, hinv]
    · simp only [Bool.not_eq_true] at hd
      simp only [hd, Bool.false_eq_true, if_false, List.any_append]
      simp [isKeyAttr, hinv]

/-- The attribute-loop invariant: the keyed flag equals "some already
collected attribute is named `key`". -/
theorem attrLoop_keyed_inv :
    ∀ (n : Nat) (ctx : Ctx) (tag : List Char) (kind : ElemKind) (acc : AttrRes) (s : PS)
      (r : AttrRes) (s' : PS),
      acc.keyed = acc.attributes.any isKeyAttr →
      parseJSXAttrLoopP n ctx tag kind acc s = .ok (r, s') →
      r.keyed = r.attributes.any isKeyAttr := by
  intro n
  induction n with
  | zero =>
    intro ctx tag kind acc s r s' hinv h
    simp [parseJSXAttrLoopP, pFuns, pFail] at h
  | succ m ih =>
    intro ctx tag kind acc s r s' hinv h
    rw [show parseJSXAttrLoopP (m + 1) = (pStep (pFuns m)).parseJSXAttrLoop from rfl] at h
    simp only [pStep, pFuns_attrLoop] at h
    by_cases hguard : s.index < ctx.source.length
    · rw [if_pos hguard] at h
      cases h1 : (pFuns m).skipWhitespace ctx s with
      | error e => rw [h1] at h; simp at h
      | ok r1 =>
        obtain ⟨u1, s1⟩ := r1
        cases u1
        rw [h1] at h
        simp only [] at h
        by_cases hbreak :
            (charAtL ctx.source s1.index == some '/' ||
              charAtL ctx.source s1.index == some '>') = true
        · rw [if_pos hbreak] at h
          simp only [Except.ok.injEq, Prod.mk.injEq] at h
          obtain ⟨h2, _⟩ := h
          subst h2
          exact hinv
        · rw [if_neg (by simpa using hbreak)] at h
          by_cases hdelim : isExpectL ctx.source ctx.d0 s1.index = true
          · rw [if_pos hdelim] at h
            cases h2 : (pFuns m).parseJSXExpression ctx s1 with
            | error e => rw [h2] at h; simp at h
            | ok r2 =>
              obtain ⟨expr, s2⟩ := r2
              rw [h2] at h
              simp only [] at h
              have hexpr : isKeyAttr expr = false :=
                parseJSXExpressionP_notKeyAttr m ctx s1 expr s2 h2
              by_cases hlen : exprValueLen expr != 0
              · rw [if_pos hlen] at h
                refine ih ctx tag kind _ s2 r s' ?_ h
                simp [List.any_append, hexpr, hinv]
              · rw [if_neg hlen] at h
                exact ih ctx tag kind acc s2 r s' hinv h
          · rw [if_neg hdelim] at h
            cases h2 : (pFuns m).parseJSXAttributeName ctx s1 with
            | error e => rw [h2] at h; simp at h
            | ok r2 =>
              obtain ⟨name, s2⟩ := r2
              rw [h2] at h
              simp only [] at h
              cases h3 : (if charAtL ctx.source s2.index == some '=' then
                           (pFuns m).parseJSXAttributeValue ctx (updIndexP 1 s2)
                         else (.ok (ASTNode.jsxNone (getLocP s2), s2) : PRes ASTNode)) with
              | error e => rw [h3] at h; simp at h
              | ok r3 =>
                obtain ⟨value, s3⟩ := r3
                rw [h3] at h
                simp only [] at h
                cases h4 : attrValidateE ctx kind tag name value with
                | error e => rw [h4] at h; simp at h
                | ok u4 =>
                  cases u4
                  rw [h4] at h
                  simp only [] at h
                  refine ih ctx tag kind _ s3 r s' ?_ h
                  exact attrRoute_keyed_inv acc name value _ hinv
    · rw [if_neg hguard] at h
      simp only [Except.ok.injEq, Prod.mk.injEq] at h
      obtain ⟨h2, _⟩ := h
      subst h2
      exact hinv

/-- C9: for every run of `parseJSXAttribute` that returns, the `keyed`
flag is true exactly when the returned attribute list contains an
attribute named `key` (directive routing never captures a `key`
attribute, dynamic spread attributes carry no name, and the flag is
flipped exactly by a parsed attribute named `key`). -/
theorem c9_keyed_iff_key_attribute (n : Nat) (ctx : Ctx) (tag : List Char) (kind : ElemKind)
    (s : PS) (r : AttrRes) (s' : PS)
    (h : parseJSXAttributeP n ctx tag kind s = .ok (r, s')) :
    (r.keyed = true ↔ ∃ a ∈ r.attributes, isKeyAttr a = true) := by
  have hinv : r.keyed = r.attributes.any isKeyAttr := by
    cases n with
    | zero => simp [parseJSXAttributeP, pFuns, pFail] at h
    | succ m =>
      rw [show parseJSXAttributeP (m + 1) = (pStep (pFuns m)).parseJSXAttribute from rfl] at h
      simp only [pStep, pFuns_attrLoop] at h
      exact attrLoop_keyed_inv m ctx tag kind ⟨[], [], false, false⟩ s r s' (by simp) h
  rw [hinv]
  simp [List.any_eq_true]

/-- C9 witness: parsing the attribute soup ` key="1">` yields the keyed
flag and a `key`-named attribute in the attribute list. -/
theorem c9_keyed_iff_key_attribute_witness :
    rw9.keyed = true ↔ ∃ a ∈ rw9.attributes, isKeyAttr a = true :=
  c9_keyed_iff_key_attribute 50 ctx9 "div".data .common initPS rw9 sw9 (by rfl)

/-- C5: `set` with `{silent: true}` writes the value into the prop store
and produces no actions at all (no render/patch, no change or receive
notification); a subsequent non-silent `set` computes from the
cumulative store (the silently written value included) and fires its
change notification and one render→patch cycle. -/
theorem c5_silent_set :
    ∀ (c : CompRec) (k : List Char) (v : Nat) (k2 : List Char) (v2 : Nat),
      setMethod c k v (some ⟨true⟩) = (c.withProps (storeSet c.propsF k v), []) ∧
      setMethod (c.withProps (storeSet c.propsF k v)) k2 v2 none =
        ((c.withProps (storeSet c.propsF k v)).withProps
           (storeSet (storeSet c.propsF k v) k2 v2),
         [REffect.changeEvent k2, REffect.renderPatch]) := by
  intro c k v k2 v2
  cases c
  constructor <;> rfl

/-- C6 counterexample: the claim says a rejected `init` promise is
"caught and logged", but the `console.error` call of component.ts 76-78
is guarded by `NODE_ENV !== 'production'`, so in a production build the
rejection is caught and consumed without any log action. -/
theorem c6_counterexample :
    (initSettleEffects "production".data .rejected true).contains REffect.logError = false := by
  decide

/-- C6 amended: a rejected `init` promise is caught by the attached
rejection handler (never rethrown), logged in development builds only,
and the component still completes initialization exactly as on a
fulfilled `init` — `componentInited` (queued receive notifications
included) runs identically after the optional log. -/
theorem c6_amended_init_rejection :
    ∀ (env : List Char) (trigger : Bool),
      constructorInitEffects (.thenable .rejected) trigger = ([], true) ∧
      initSettleEffects env .rejected trigger =
        (if devGuard env then [REffect.logError] else []) ++
          initSettleEffects env .fulfilled trigger := by
  intro env trigger
  constructor <;> rfl

theorem delegated_all_not_detach (D : List (List Char))
    (props : Option (List (List Char × Nat))) (dom : Option Nat) :
    (delegatedUnmountEffects D props dom).all (fun e => !isDomDetach e) = true := by
  simp only [delegatedUnmountEffects]
  induction delegatedPairs D props dom with
  | nil => rfl
  | cons pd rest ihp => simp only [List.map_cons, List.all_cons, ihp]; rfl

/-- Embeds `unmount` performs no DOM-detaching action anywhere in the tree. -/
theorem unmountEffectsF_no_detach :
    ∀ (n : Nat) (D : List (List Char)) (v : VNode),
      (unmountEffectsF n D v).all (fun e => !isDomDetach e) = true := by
  intro n
  induction n with
  | zero => intro D v; simp [unmountEffectsF]
  | succ m ih =>
    intro D v
    obtain ⟨ty, dom, props, ct, ch, ref⟩ := v
    have hlist : ∀ vs : List VNode,
        ((vs.map (unmountEffectsF m D)).flatten).all (fun e => !isDomDetach e) = true := by
      intro vs
      induction vs with
      | nil => rfl
      | cons w ws ihw =>
        simp [List.all_append, ih D w, ihw]
    simp only [unmountEffectsF]
    by_cases hEl : (ty &&& tElement != 0) = true
    · simp only [hEl, if_true, List.all_append, List.all_cons, List.all_nil,
        Bool.and_eq_true]
      refine ⟨⟨by simp [isDomDetach], delegated_all_not_detach D props dom⟩, ?_⟩
      by_cases hMult : (ct &&& ctMultipleChildren != 0) = true
      · simp only [hMult, if_true]
        cases ch with
        | multiple vs => exact hlist vs
        | nil => rfl
        | single w => rfl
        | textContent str => rfl
        | comp c => rfl
      · simp only [hMult, Bool.false_eq_true, if_false]
        by_cases hSingle : (ct == ctHasVNodeChildren) = true
        · simp only [hSingle, if_true]
          cases ch with
          | single w => exact ih D w
          | nil => rfl
          | multiple vs => rfl
          | textContent str => rfl
          | comp c => rfl
        · simp only [hSingle, Bool.false_eq_true, if_false]
          rfl
    · simp only [hEl, Bool.false_eq_true, if_false]
      by_cases htr : ch.truthy = true
      · simp only [htr, if_true]
        by_cases hCC : (ty &&& tComponentClass != 0) = true
        · simp only [hCC, if_true]
          cases ch with
          | comp c =>
            simp only [List.all_append, Bool.and_eq_true]
            refine ⟨⟨⟨⟨?_, ?_⟩, ?_⟩, ?_⟩, ?_⟩
            · cases c.hasBeforeUnmountF <;> rfl
            · cases c.lastInputF with
              | some li => exact ih D li
              | none => rfl
            · rfl
            · cases c.hasUnmountedF <;> rfl
            · rfl
          | nil => rfl
          | single w => rfl
          | multiple vs => rfl
          | textContent str => rfl
        · simp only [hCC, Bool.false_eq_true, if_false]
          rfl
      · simp only [Bool.not_eq_true] at htr
        simp only [htr, Bool.false_eq_true, if_false]
        rfl

/-- C10: `unmount(vNode)` never detaches DOM — every action it performs
(ref release, delegated-event unregistration, component teardown hooks,
event-listener clearing) is a non-detaching action and the VNode's `dom`
is left in place; DOM detachment happens only through `remove` (which is
exactly `unmount` followed by `removeVNodeDom`) and `removeAllChildren`
(which is exactly `unmountAllChildren` followed by `removeVNodeDom` for
a fragment, `clearDom` otherwise). -/
theorem c10_unmount_no_dom_detach :
    ∀ (n : Nat) (D : List (List Char)) (v : VNode) (parentDom : Nat)
      (children : List VNode) (dom : Nat) (fv : VNode),
      (unmountEffectsF n D v).all (fun e => !isDomDetach e) = true ∧
      removeEffectsF n D v parentDom =
        unmountEffectsF n D v ++ [.removeVNodeDomE v.domOf parentDom] ∧
      removeAllChildrenEffectsF n D children dom fv =
        unmountAllEffectsF n D children ++
          (if fv.ty &&& tFragment != 0 then [.removeVNodeDomE fv.domOf dom]
           else [.clearDomE dom]) := by
  intro n D v parentDom children dom fv
  exact ⟨unmountEffectsF_no_detach n D v, rfl, rfl⟩

/-- C4: the claim — like the spec's mount/unmount-symmetry testable
property — says no delegated event registered during mount remains
registered after unmount.  The code violates it: `unmount`
(unmount.ts 12-44) recurses only into the children of element VNodes and
into the `$lastInput` subtree of class-component VNodes; a Fragment
VNode falls through both branches (its truthy array children reach only
the `ComponentClass` test, and the function-component case is an
explicit TODO), so delegated events on elements inside a fragment child
are never unregistered.  Concretely, in the mounted tree `rootFrag` —
an element whose array child is a fragment wrapping an element that
carries the delegated `ev-click` prop on DOM node 7 — the tree is
well-formed and the event is registered on it, yet `unmount` of the
root emits no matching `unmountDelegatedEvent` call. -/
theorem c4_fragment_event_stays_registered :
    wfVNodeF 5 rootFrag = true ∧
    (evClick, some 7) ∈ treeDelegatedF 5 delegTable0 rootFrag ∧
    REffect.unmountDelegatedEvent evClick (some 7) ∉ unmountEffectsF 5 delegTable0 rootFrag := by
  exact ⟨rfl, by decide, by decide⟩

/-- C7: the unmounted state is terminal — after `$unmount` has run (its
action sequence being the `beforeUnmount` hook, the unmount of
`$lastInput`, `off()`, the `unmounted` hook, with `$unmounted` set), the
component's `$unmounted` flag is true and `forceUpdate` on it returns
immediately: no state change, no render/patch, no callback
invocation. -/
theorem c7_unmounted_terminal :
    ∀ (n : Nat) (D : List (List Char)) (c : CompRec) (hasCallback : Bool),
      ((dollarUnmount n D c).1).unmountedF = true ∧
      forceUpdateMethod (dollarUnmount n D c).1 hasCallback = ((dollarUnmount n D c).1, []) := by
  intro n D c cb
  cases c
  constructor
  · rfl
  · simp [dollarUnmount, CompRec.withUnmounted, forceUpdateMethod, CompRec.unmountedF]


/-- Embedding sanity: parsing `<div>hello</div>` yields one root element
with tag `div` and a single text child `hello` — the spec's first
concrete scenario. -/
theorem parse_demo_simple :
    parseProgram 60 srcDemo1 ['{'] ['}'] "development".data =
      .ok ([.element .common "div".data [] [] [.jsxText "hello".data ⟨1, 6⟩] false ⟨1, 2⟩],
           ⟨16, 1, 17⟩) := rfl

/-- Embedding sanity: the spec's if-chain scenario through the full
parser — the `span` keeps only the chain-head `v-if` element as a child,
and that element's `v-if` directive node's `next` holds the spliced-out
`v-else` element. -/
theorem parse_demo_if_chain :
    parseProgram 100 srcDemo2 ['{'] ['}'] "development".data =
      .ok ([.element .common "span".data [] [] [demo2If] false ⟨1, 2⟩], ⟨53, 1, 54⟩) := rfl

end Intact
